import Mathlib

/-
Verification of the waiig interpreter (a Monkey-style tree-walking
interpreter written in Go): shallow embedding of the AST, object model,
environment chain, evaluator (src/evaluator/evaluator.go,
src/evaluator/builtins.go, src/object/object.go) and the Pratt parser
(src/parser/parser.go), with theorems checking the specification's claims.

Modelling conventions:
  * Go int64 is Int with explicit two's-complement wrapping where the Go
    arithmetic can overflow; Go uint64 is Nat taken mod 2^64.
  * Go strings are byte lists (List Nat, one entry per byte): the language
    indexes strings by byte, and hashing is over bytes.
  * Go's nil object.Object is `Option Obj = none`; a Go nil-pointer
    dereference or slice/index violation (a host panic) is the explicit
    result `EvalRes.hostPanic`.
  * Environments are mutable frames shared by reference; we model the heap
    of frames as a list `Store` and an environment as an index into it,
    so closures observe later writes to their captured frame.
  * The evaluator can recurse unboundedly (user-level recursion), so every
    evaluation function takes fuel and structurally recurses on it;
    `EvalRes.fuelOut` marks exhaustion and is propagated like a panic.
-/

namespace Waiig

/-! ### AST (ast/ast.go; the node set is the one the evaluator dispatches on) -/

mutual

inductive Expr where
  | Identifier (value : String)
  | IntegerLiteral (value : Int)
  | StringLiteral (value : List Nat)
  | BooleanLit (value : Bool)
  | PrefixExpr (operator : String) (right : Expr)
  | InfixExpr (operator : String) (left : Expr) (right : Expr)
  | IfExpr (condition : Expr) (consequence : BlockStmt) (alternative : Option BlockStmt)
  | FunctionLiteral (parameters : List String) (body : BlockStmt)
  | CallExpr (function : Expr) (arguments : List Expr)
  | ArrayLiteral (elements : List Expr)
  | IndexExpr (left : Expr) (index : Expr)
  | RangeExpr (left : Expr) (right : Expr)
  | HashLiteral (pairs : List (Expr × Expr))

inductive Stmt where
  | LetStmt (name : String) (value : Expr)
  | ReturnStmt (returnValue : Expr)
  | ExprStmt (expression : Expr)

inductive BlockStmt where
  | mk (statements : List Stmt)

end

def BlockStmt.statements : BlockStmt → List Stmt
  | .mk ss => ss

/-- ast.Program is a list of statements. -/
abbrev Program := List Stmt

/-! ### Object model (object/object.go) -/

def INTEGER_OBJ : String := "INTEGER"
def STRING_OBJ : String := "STRING"
def BOOLEAN_OBJ : String := "BOOLEAN"
def NULL_OBJ : String := "NULL"
def RETURN_VALUE_OBJ : String := "RETURN_VALUE"
def ERROR_OBJ : String := "ERROR"
def FUNCTION_OBJ : String := "FUNCTION"
def BUILTIN_OBJ : String := "BUILTIN"
def ARRAY_OBJ : String := "ARRAY"
def RANGE_OBJ : String := "RANGE"
def HASH_OBJ : String := "HASH"

/-- object.HashKey: a type tag plus a 64-bit value (uint64 as Nat mod 2^64). -/
structure HashKey where
  typeTag : String
  value : Nat
deriving DecidableEq

/-- The three builtins registered in evaluator/builtins.go. -/
inductive BuiltinTag where
  | lenTag
  | pushTag
  | printlnTag
deriving DecidableEq

/-- The runtime object universe (object/object.go).  Array elements, hash
values and the payload of ReturnValue can be Go nil (`none`): the only
sources of nil values are `println` and value-less evaluations.  A Function
holds its captured environment as an index into the frame store.  Hash pairs
mirror map[HashKey]HashPair: the key object is kept beside the value. -/
inductive Obj where
  | Integer (value : Int)
  | StringO (value : List Nat)
  | BooleanO (value : Bool)
  | NullO
  | ReturnValue (value : Option Obj)
  | ErrorO (message : String)
  | FunctionO (parameters : List String) (body : BlockStmt) (env : Nat)
  | BuiltinO (fn : BuiltinTag)
  | ArrayO (elements : List (Option Obj))
  | RangeO (fromV : Int) (toExclusive : Int)
  | HashO (pairs : List (HashKey × Obj × Option Obj))

/-- Object.Type() (object/object.go). -/
def Obj.objType : Obj → String
  | .Integer _ => INTEGER_OBJ
  | .StringO _ => STRING_OBJ
  | .BooleanO _ => BOOLEAN_OBJ
  | .NullO => NULL_OBJ
  | .ReturnValue _ => RETURN_VALUE_OBJ
  | .ErrorO _ => ERROR_OBJ
  | .FunctionO _ _ _ => FUNCTION_OBJ
  | .BuiltinO _ => BUILTIN_OBJ
  | .ArrayO _ => ARRAY_OBJ
  | .RangeO _ _ => RANGE_OBJ
  | .HashO _ => HASH_OBJ

/-! ### Hashing (object/object.go HashKey methods) -/

/-- FNV-64a offset basis (hash/fnv). -/
def fnvOffsetBasis : Nat := 14695981039346656037

/-- FNV-64a prime (hash/fnv). -/
def fnvPrime : Nat := 1099511628211

/-- FNV-64a over the bytes of a string, as h.Write([]byte(s)); h.Sum64(). -/
def fnv64a (bytes : List Nat) : Nat :=
  bytes.foldl (fun h b => ((h ^^^ b) * fnvPrime) % (2 ^ 64)) fnvOffsetBasis

/-- Integer.HashKey(): the int64 value converted to uint64 (two's complement). -/
def integerHashKey (v : Int) : HashKey :=
  ⟨INTEGER_OBJ, (v % (2 ^ 64 : Int)).toNat⟩

/-- Boolean.HashKey(): 1 for true, 0 for false. -/
def booleanHashKey (b : Bool) : HashKey :=
  ⟨BOOLEAN_OBJ, if b then 1 else 0⟩

/-- String.HashKey(): FNV-64a of the text. -/
def stringHashKey (s : List Nat) : HashKey :=
  ⟨STRING_OBJ, fnv64a s⟩

/-- The object.Hashable type assertion: only Integer, Boolean and String
implement HashKey(); every other variant fails the assertion (`none`). -/
def hashKeyOf : Obj → Option HashKey
  | .Integer v => some (integerHashKey v)
  | .BooleanO b => some (booleanHashKey b)
  | .StringO s => some (stringHashKey s)
  | _ => none

/-- Lookup in a Hash object's pair list by HashKey (map access). -/
def hashLookup : List (HashKey × Obj × Option Obj) → HashKey → Option (Obj × Option Obj)
  | [], _ => none
  | (k, p, v) :: rest, key => if k = key then some (p, v) else hashLookup rest key

/-- Map write pairs[hashKey] = pair: replace an existing entry with the same
HashKey, otherwise append. -/
def hashInsert : List (HashKey × Obj × Option Obj) → HashKey → Obj → Option Obj →
    List (HashKey × Obj × Option Obj)
  | [], key, p, v => [(key, p, v)]
  | (k, p0, v0) :: rest, key, p, v =>
    if k = key then (key, p, v) :: rest else (k, p0, v0) :: hashInsert rest key p v

/-! ### Environment (object/object.go Environment)

A frame is a binding table plus an optional outer frame; frames live in a
heap (`Store`) and are addressed by index, since Go shares them by pointer:
`NewEnclosedEnvironment` never copies, and `Set` mutates the receiver frame
in place. -/

structure Frame where
  outer : Option Nat
  store : List (String × Option Obj)

abbrev Store := List Frame

def emptyFrame : Frame := ⟨none, []⟩

/-- Read a frame out of the store (indices are always in range in runs that
start from NewEnvironment). -/
def getFrame (st : Store) (i : Nat) : Frame := st.getD i emptyFrame

/-- Go map read m[name]: `some v` when bound (v itself may be Go nil). -/
def lookupBind : List (String × Option Obj) → String → Option (Option Obj)
  | [], _ => none
  | (n, v) :: rest, name => if n = name then some v else lookupBind rest name

/-- Go map write m[name] = v: last write wins. -/
def updateBind : List (String × Option Obj) → String → Option Obj →
    List (String × Option Obj)
  | [], name, v => [(name, v)]
  | (n, w) :: rest, name, v =>
    if n = name then (name, v) :: rest else (n, w) :: updateBind rest name v

/-- Environment.Set: always writes into the receiver frame (index `idx`). -/
def envSet (st : Store) (idx : Nat) (name : String) (v : Option Obj) : Store :=
  st.set idx { getFrame st idx with store := updateBind (getFrame st idx).store name v }

/-- Environment.Get: the receiver frame first, then the outer chain; `none`
after exhausting the chain.  The fuel bounds the walk (call sites pass the
store size, which bounds any outer chain built by NewEnclosedEnvironment). -/
def envGet (st : Store) : Nat → Nat → String → Option (Option Obj)
  | 0, _, _ => none
  | fuel + 1, idx, name =>
    match lookupBind (getFrame st idx).store name with
    | some v => some v
    | none =>
      match (getFrame st idx).outer with
      | some o => envGet st fuel o name
      | none => none

/-- object.NewEnvironment(): a fresh empty top-level frame. -/
def newEnvironment (st : Store) : Store × Nat :=
  (st ++ [emptyFrame], st.length)

/-- object.NewEnclosedEnvironment(outer): a fresh empty frame chained to
`outer`; the outer frame is referenced, not copied. -/
def newEnclosedEnvironment (st : Store) (outer : Nat) : Store × Nat :=
  (st ++ [{ emptyFrame with outer := some outer }], st.length)

/-! ### Evaluation results

Go's Eval returns object.Object, which may be nil; a host panic (nil
dereference, slice bound violation, out-of-range index, integer division by
zero) aborts everything; fuel exhaustion is an artefact of the embedding and
is propagated the same way. -/

inductive EvalRes where
  | val (o : Obj)
  | nilRes
  | hostPanic (msg : String)
  | fuelOut
deriving Inhabited

/-- The Object carried by an EvalRes, with Go nil as `none` (only meaningful
for `val`/`nilRes`). -/
def EvalRes.toOpt : EvalRes → Option Obj
  | .val o => some o
  | _ => none

/-- An Option Obj turned back into the result of returning it from Eval. -/
def optToRes : Option Obj → EvalRes
  | some o => .val o
  | none => .nilRes

/-- evaluator.isError: nil is not an error. -/
def isErrorRes : EvalRes → Bool
  | .val (.ErrorO _) => true
  | _ => false

/-- isError on a Go object value (possibly nil). -/
def isErrorOpt : Option Obj → Bool
  | some (.ErrorO _) => true
  | _ => false

/-- A result that aborts the surrounding Go evaluation without being an
object: a host panic or (embedding only) exhausted fuel. -/
def isAbort : EvalRes → Bool
  | .hostPanic _ => true
  | .fuelOut => true
  | _ => false

/-- newError(...): an Error object from a formatted message. -/
def newError (msg : String) : Obj := .ErrorO msg

/-! ### int64 arithmetic -/

/-- Wrap an Int into int64 two's-complement range, as Go + - * do. -/
def wrap64 (i : Int) : Int :=
  ((i + 2 ^ 63) % 2 ^ 64) - 2 ^ 63

/-! ### Pure evaluator helpers (evaluator/evaluator.go) -/

/-- nativeBooleanToObject: the shared TRUE/FALSE singletons; in the value
model the Boolean object with that value. -/
def nativeBooleanToObject (b : Bool) : Obj := .BooleanO b

/-- isTruthy: switch obj { case TRUE: true; case FALSE: false; case NULL:
false; default: true }.  The switch compares against the singleton pointers,
which in the value model are the unique Boolean/Null values; a Go nil obj
falls to the default and is truthy. -/
def isTruthy : Option Obj → Bool
  | some (.BooleanO true) => true
  | some (.BooleanO false) => false
  | some .NullO => false
  | _ => true

/-- evalBangOperatorExpression: switch on the singletons, default FALSE. -/
def evalBangOperatorExpression : Option Obj → Obj
  | some (.BooleanO true) => nativeBooleanToObject false
  | some (.BooleanO false) => nativeBooleanToObject true
  | some .NullO => nativeBooleanToObject true
  | _ => nativeBooleanToObject false

/-- evalMinusPrefixOperatorExpression: requires an Integer operand (the
Type() call on a Go nil operand panics). -/
def evalMinusPrefixOperatorExpression : Option Obj → EvalRes
  | none => .hostPanic "nil pointer dereference"
  | some (.Integer v) => .val (.Integer (wrap64 (-v)))
  | some o => .val (newError ("unknown operator: -" ++ o.objType))

/-- evalPrefixExpression: dispatch on the operator text. -/
def evalPrefixExpression (operator : String) (operand : Option Obj) : EvalRes :=
  if operator = "!" then .val (evalBangOperatorExpression operand)
  else if operator = "-" then evalMinusPrefixOperatorExpression operand
  else
    match operand with
    | none => .hostPanic "nil pointer dereference"
    | some o => .val (newError ("unknown operator " ++ operator ++ o.objType))

/-- evalIntegerInfixExpression.  Go's / truncates toward zero; division by
zero is a run-time panic (not special-cased by the evaluator); the other
arithmetic wraps in int64. -/
def evalIntegerInfixExpression (operator : String) (leftVal rightVal : Int) : EvalRes :=
  if operator = "+" then .val (.Integer (wrap64 (leftVal + rightVal)))
  else if operator = "-" then .val (.Integer (wrap64 (leftVal - rightVal)))
  else if operator = "*" then .val (.Integer (wrap64 (leftVal * rightVal)))
  else if operator = "/" then
    if rightVal = 0 then .hostPanic "integer divide by zero"
    else .val (.Integer (wrap64 (leftVal.tdiv rightVal)))
  else if operator = ">" then .val (nativeBooleanToObject (rightVal < leftVal))
  else if operator = "<" then .val (nativeBooleanToObject (leftVal < rightVal))
  else if operator = "==" then .val (nativeBooleanToObject (leftVal = rightVal))
  else if operator = "!=" then .val (nativeBooleanToObject (leftVal ≠ rightVal))
  else .val (newError ("unknown operator: " ++ INTEGER_OBJ ++ " " ++ operator ++ " " ++ INTEGER_OBJ))

/-- evalStringInfixExpression: + concatenates, == and != compare by value. -/
def evalStringInfixExpression (operator : String) (leftVal rightVal : List Nat) : Obj :=
  if operator = "+" then .StringO (leftVal ++ rightVal)
  else if operator = "==" then nativeBooleanToObject (leftVal = rightVal)
  else if operator = "!=" then nativeBooleanToObject (leftVal ≠ rightVal)
  else newError ("unknown operator: " ++ STRING_OBJ ++ " " ++ operator ++ " " ++ STRING_OBJ)

/-- The Go pointer comparison left == right as the evaluator instantiates it.
Boolean and Null objects are the shared singletons TRUE/FALSE/NULL, so for
them pointer equality is value equality; the value model does not track the
heap identity of other objects, so for them the comparison is modelled as
false (the common case of separately built objects).  No claim concerns the
identity of non-singleton objects. -/
def fallbackPtrEq : Obj → Obj → Bool
  | .BooleanO a, .BooleanO b => a = b
  | .NullO, .NullO => true
  | _, _ => false

/-- evalInfixExpression, with the outcome of the Go pointer comparison
`left == right` passed in as `ptrEq` (see fallbackPtrEq).  A Go nil operand
panics at left.Type()/right.Type() in the first switch condition. -/
def evalInfixExpression (ptrEq : Bool) (operator : String) :
    Option Obj → Option Obj → EvalRes
  | none, _ => .hostPanic "nil pointer dereference"
  | _, none => .hostPanic "nil pointer dereference"
  | some l, some r =>
    match l, r with
    | .Integer lv, .Integer rv => evalIntegerInfixExpression operator lv rv
    | .StringO ls, .StringO rs => .val (evalStringInfixExpression operator ls rs)
    | l, r =>
      if operator = "==" then .val (nativeBooleanToObject ptrEq)
      else if operator = "!=" then .val (nativeBooleanToObject (!ptrEq))
      else if l.objType ≠ r.objType then
        .val (newError ("type mismatch: " ++ l.objType ++ " " ++ operator ++ " " ++ r.objType))
      else
        .val (newError ("unknown operator: " ++ l.objType ++ " " ++ operator ++ " " ++ r.objType))

/-! ### Builtins (evaluator/builtins.go) -/

/-- The `len` builtin: Integer byte length of a String, length of an Array;
wrong arity or other argument types are Errors; a Go nil argument panics at
args[0].Type(). -/
def lenBuiltin (args : List (Option Obj)) : EvalRes :=
  if args.length ≠ 1 then
    .val (newError ("wrong number of arguments. got=" ++ toString args.length ++ ", want=1"))
  else
    match args.getD 0 none with
    | some (.StringO s) => .val (.Integer (s.length : Int))
    | some (.ArrayO es) => .val (.Integer (es.length : Int))
    | some o => .val (newError ("argument to `len` not supported, got " ++ o.objType))
    | none => .hostPanic "nil pointer dereference"

/-- The `push` builtin: a NEW array of the original elements with the value
appended (make + copy + set last); the argument array is not modified. -/
def pushBuiltin (args : List (Option Obj)) : EvalRes :=
  if args.length ≠ 2 then
    .val (newError ("wrong number of arguments. got=" ++ toString args.length ++ ", want=2"))
  else
    match args.getD 0 none with
    | some (.ArrayO es) => .val (.ArrayO (es ++ [args.getD 1 none]))
    | some o => .val (newError ("argument to `push` must be ARRAY, got " ++ o.objType))
    | none => .hostPanic "nil pointer dereference"

/-- The `println` builtin: needs at least one argument and a String first
argument, then prints (the write to stdout is outside the value model) and
returns Go nil. -/
def printlnBuiltin (args : List (Option Obj)) : EvalRes :=
  if args.length < 1 then
    .val (newError ("wrong number of arguments. got=" ++ toString args.length ++ ", want at least 1"))
  else
    match args.getD 0 none with
    | some (.StringO _) => .nilRes
    | some o => .val (newError ("first argument to `println` must be STRING, got " ++ o.objType))
    | none => .hostPanic "nil pointer dereference"

/-- Dispatch a builtin's native function. -/
def builtinFn : BuiltinTag → List (Option Obj) → EvalRes
  | .lenTag => lenBuiltin
  | .pushTag => pushBuiltin
  | .printlnTag => printlnBuiltin

/-- The fixed builtin registry (the keys of the builtins map). -/
def builtins : String → Option BuiltinTag
  | "len" => some .lenTag
  | "push" => some .pushTag
  | "println" => some .printlnTag
  | _ => none

/-- evalIdentifier: the environment chain first; only if Get fails is the
builtin registry consulted; otherwise an "identifier not found" Error. -/
def evalIdentifier (st : Store) (env : Nat) (name : String) : EvalRes :=
  match envGet st st.length env name with
  | some v => optToRes v
  | none =>
    match builtins name with
    | some b => .val (.BuiltinO b)
    | none => .val (newError ("identifier not found: " ++ name))

/-! ### Pure parts of indexing and range construction -/

/-- Go string(rune(b)) for a byte b: the UTF-8 encoding of code point b
(one byte below 128, two bytes for 128..255). -/
def runeUTF8 (b : Nat) : List Nat :=
  if b < 128 then [b] else [192 + b / 64, 128 + b % 64]

/-- The switch body of evalIndexExpression once both sub-expressions have
values.  A Go nil on either side panics (left.Type() in the default case,
indexObj.Type() in the error formatting). -/
def evalIndexPure : Option Obj → Option Obj → EvalRes
  | none, _ => .hostPanic "nil pointer dereference"
  | some (.ArrayO elems), idx =>
    match idx with
    | some (.Integer iv) =>
      if iv ≥ (elems.length : Int) ∨ iv < 0 then
        .val (newError ("index out of bounds, index=" ++ toString iv ++ " len=" ++ toString elems.length))
      else optToRes (elems.getD iv.toNat none)
    | some (.RangeO a b) =>
      if a > (elems.length : Int) ∨ b > (elems.length : Int) ∨ a < 0 ∨ b < 0 then
        .val (newError ("range index out of bounds, index=" ++ toString a ++ ":" ++ toString b ++
          " len=" ++ toString elems.length))
      else if b < a then .hostPanic "slice bounds out of range"
      else .val (.ArrayO ((elems.drop a.toNat).take (b - a).toNat))
    | some o => .val (newError ("unknown index type: " ++ o.objType))
    | none => .hostPanic "nil pointer dereference"
  | some (.StringO s), idx =>
    match idx with
    | some (.Integer iv) =>
      if iv ≥ (s.length : Int) ∨ iv < 0 then
        .val (newError ("index out of bounds, index=" ++ toString iv ++ " len=" ++ toString s.length))
      else .val (.StringO (runeUTF8 (s.getD iv.toNat 0)))
    | some (.RangeO a b) =>
      if a > (s.length : Int) ∨ b > (s.length : Int) ∨ a < 0 ∨ b < 0 then
        .val (newError ("range index out of bounds, index=" ++ toString a ++ ":" ++ toString b ++
          " len=" ++ toString s.length))
      else if b < a then .hostPanic "slice bounds out of range"
      else .val (.StringO ((s.drop a.toNat).take (b - a).toNat))
    | some o => .val (newError ("unknown index type: " ++ o.objType))
    | none => .hostPanic "nil pointer dereference"
  | some (.HashO pairs), idx =>
    match idx with
    | none => .hostPanic "nil pointer dereference"
    | some io =>
      match hashKeyOf io with
      | none => .val (newError ("unusable as hash key: " ++ io.objType))
      | some k =>
        match hashLookup pairs k with
        | none => .val .NullO
        | some (_, v) => optToRes v
  | some o, _ => .val (newError ("unknown operator: index of " ++ o.objType))

/-- The tail of evalRangeExpression once both operands have values: both
must be Integers, and from ≤ toExclusive is enforced at construction.  A Go
nil operand panics in the error formatting (left.Type()/right.Type()). -/
def evalRangePure : Option Obj → Option Obj → EvalRes
  | none, _ => .hostPanic "nil pointer dereference"
  | _, none => .hostPanic "nil pointer dereference"
  | some (.Integer a), some (.Integer b) =>
    if a > b then
      .val (newError ("range `from` must be greater than or equal to > `toExclusive`, from=" ++
        toString a ++ " toExclusive=" ++ toString b))
    else .val (.RangeO a b)
  | some l, some r => .val (newError ("unknown operator: " ++ l.objType ++ " : " ++ r.objType))

/-- unwrapReturnValue: strip one ReturnValue wrapper. -/
def unwrapReturnValue : EvalRes → EvalRes
  | .val (.ReturnValue v) => optToRes v
  | r => r

/-- extendFunctionEnv's binding loop: each parameter is bound positionally
to args[paramIdx]; a parameter beyond the argument list is the Go slice
access args[paramIdx] out of range, a host panic (`none`). -/
def bindParams : Store → Nat → List String → List (Option Obj) → Option Store
  | st, _, [], _ => some st
  | _, _, _ :: _, [] => none
  | st, idx, p :: ps, a :: rest => bindParams (envSet st idx p a) idx ps rest

/-- extendFunctionEnv: one fresh frame enclosed in the function's captured
environment, parameters bound positionally (no arity check). -/
def extendFunctionEnv (st : Store) (fnEnv : Nat) (params : List String)
    (args : List (Option Obj)) : Option (Store × Nat) :=
  let (st1, idx) := newEnclosedEnvironment st fnEnv
  (bindParams st1 idx params args).map (fun st2 => (st2, idx))

/-! ### The evaluator (evaluator/evaluator.go Eval and its recursive helpers)

All functions take fuel and pass strictly smaller fuel to every recursive
call; `fuelOut` only reports that the chosen fuel was too small. -/

/-- An ast.Node as the evaluator dispatches on it. -/
inductive Node where
  | prog (p : Program)
  | stmt (s : Stmt)
  | expr (e : Expr)
  | block (b : BlockStmt)

/-- Result of evalExpressions: an object list (a singleton Error when some
element evaluated to an Error), or a propagated panic / exhausted fuel. -/
inductive ListRes where
  | objs (l : List (Option Obj))
  | abort (r : EvalRes)

mutual

/-- Eval: the single dispatch over node kinds. -/
def Eval : Nat → Node → Nat → Store → EvalRes × Store
  | 0, _, _, st => (.fuelOut, st)
  | fuel + 1, node, env, st =>
    match node with
    | .prog p => evalProgram fuel p env st
    | .stmt (.ExprStmt e) => Eval fuel (.expr e) env st
    | .expr (.IntegerLiteral v) => (.val (.Integer v), st)
    | .expr (.StringLiteral s) => (.val (.StringO s), st)
    | .expr (.BooleanLit b) => (.val (nativeBooleanToObject b), st)
    | .expr (.PrefixExpr op r) =>
      let (res, st1) := Eval fuel (.expr r) env st
      if isAbort res then (res, st1)
      else if isErrorRes res then (res, st1)
      else (evalPrefixExpression op res.toOpt, st1)
    | .expr (.InfixExpr op l r) =>
      let (lres, st1) := Eval fuel (.expr l) env st
      if isAbort lres then (lres, st1)
      else if isErrorRes lres then (lres, st1)
      else
        let (rres, st2) := Eval fuel (.expr r) env st1
        if isAbort rres then (rres, st2)
        else if isErrorRes rres then (rres, st2)
        else
          let ptrEq := match lres.toOpt, rres.toOpt with
            | some a, some b => fallbackPtrEq a b
            | _, _ => false
          (evalInfixExpression ptrEq op lres.toOpt rres.toOpt, st2)
    | .block b => evalBlockStatement fuel b.statements env st
    | .expr (.IfExpr c cons alt) => evalIfExpression fuel c cons alt env st
    | .stmt (.ReturnStmt e) =>
      let (res, st1) := Eval fuel (.expr e) env st
      if isAbort res then (res, st1)
      else if isErrorRes res then (res, st1)
      else (.val (.ReturnValue res.toOpt), st1)
    | .stmt (.LetStmt name e) =>
      let (res, st1) := Eval fuel (.expr e) env st
      if isAbort res then (res, st1)
      else if isErrorRes res then (res, st1)
      else (.nilRes, envSet st1 env name res.toOpt)
    | .expr (.Identifier name) => (evalIdentifier st env name, st)
    | .expr (.FunctionLiteral params body) => (.val (.FunctionO params body env), st)
    | .expr (.CallExpr fn args) =>
      let (fres, st1) := Eval fuel (.expr fn) env st
      if isAbort fres then (fres, st1)
      else if isErrorRes fres then (fres, st1)
      else
        match evalExpressionsLoop fuel args [] env st1 with
        | (.abort r, st2) => (r, st2)
        | (.objs l, st2) =>
          if l.length = 1 && isErrorOpt (l.getD 0 none) then (optToRes (l.getD 0 none), st2)
          else applyFunction fuel fres.toOpt l st2
    | .expr (.ArrayLiteral elems) =>
      match evalExpressionsLoop fuel elems [] env st with
      | (.abort r, st1) => (r, st1)
      | (.objs l, st1) =>
        if l.length = 1 && isErrorOpt (l.getD 0 none) then (optToRes (l.getD 0 none), st1)
        else (.val (.ArrayO l), st1)
    | .expr (.IndexExpr l i) => evalIndexExpression fuel l i env st
    | .expr (.RangeExpr l r) => evalRangeExpression fuel l r env st
    | .expr (.HashLiteral pairs) => evalHashExpression fuel pairs env st

termination_by structural fuel _n _e _s => fuel

/-- evalProgram: run top-level statements in order; unwrap a ReturnValue
into its inner value; return an Error unchanged; otherwise the last
statement's result (nil for an empty program). -/
def evalProgram : Nat → List Stmt → Nat → Store → EvalRes × Store
  | 0, _, _, st => (.fuelOut, st)
  | fuel + 1, stmts, env, st =>
    match stmts with
    | [] => (.nilRes, st)
    | s :: rest =>
      let (r, st1) := Eval fuel (.stmt s) env st
      if isAbort r then (r, st1)
      else
        match r with
        | .val (.ReturnValue v) => (optToRes v, st1)
        | .val (.ErrorO m) => (.val (.ErrorO m), st1)
        | _ =>
          match rest with
          | [] => (r, st1)
          | _ :: _ => evalProgram fuel rest env st1

termination_by structural fuel _l _e _s => fuel

/-- evalBlockStatement: run the block's statements in order; return, still
wrapped / unchanged, the first result whose type is RETURN_VALUE or ERROR;
otherwise the last statement's result (nil for an empty block). -/
def evalBlockStatement : Nat → List Stmt → Nat → Store → EvalRes × Store
  | 0, _, _, st => (.fuelOut, st)
  | fuel + 1, stmts, env, st =>
    match stmts with
    | [] => (.nilRes, st)
    | s :: rest =>
      let (r, st1) := Eval fuel (.stmt s) env st
      if isAbort r then (r, st1)
      else
        match r with
        | .val (.ReturnValue v) => (.val (.ReturnValue v), st1)
        | .val (.ErrorO m) => (.val (.ErrorO m), st1)
        | _ =>
          match rest with
          | [] => (r, st1)
          | _ :: _ => evalBlockStatement fuel rest env st1

termination_by structural fuel _l _e _s => fuel

/-- The loop of evalExpressions: left to right, appending each evaluated
value to the accumulator; the first Error discards the accumulator, becomes
a singleton result list, and the remaining expressions are not evaluated. -/
def evalExpressionsLoop : Nat → List Expr → List (Option Obj) → Nat → Store → ListRes × Store
  | 0, _, _, _, st => (.abort .fuelOut, st)
  | _ + 1, [], acc, _, st => (.objs acc, st)
  | fuel + 1, e :: rest, acc, env, st =>
    let (r, st1) := Eval fuel (.expr e) env st
    if isAbort r then (.abort r, st1)
    else if isErrorRes r then (.objs [r.toOpt], st1)
    else evalExpressionsLoop fuel rest (acc ++ [r.toOpt]) env st1

termination_by structural fuel _l _a _e _s => fuel

/-- evalIfExpression: condition, then exactly one branch; a missing
alternative yields NULL. -/
def evalIfExpression : Nat → Expr → BlockStmt → Option BlockStmt → Nat → Store → EvalRes × Store
  | 0, _, _, _, _, st => (.fuelOut, st)
  | fuel + 1, cond, cons, alt, env, st =>
    let (c, st1) := Eval fuel (.expr cond) env st
    if isAbort c then (c, st1)
    else if isErrorRes c then (c, st1)
    else if isTruthy c.toOpt then Eval fuel (.block cons) env st1
    else
      match alt with
      | some a => Eval fuel (.block a) env st1
      | none => (.val .NullO, st1)

termination_by structural fuel _c _k _a _e _s => fuel

/-- evalIndexExpression: left, then index, then the indexing switch. -/
def evalIndexExpression : Nat → Expr → Expr → Nat → Store → EvalRes × Store
  | 0, _, _, _, st => (.fuelOut, st)
  | fuel + 1, l, i, env, st =>
    let (lres, st1) := Eval fuel (.expr l) env st
    if isAbort lres then (lres, st1)
    else if isErrorRes lres then (lres, st1)
    else
      let (ires, st2) := Eval fuel (.expr i) env st1
      if isAbort ires then (ires, st2)
      else if isErrorRes ires then (ires, st2)
      else (evalIndexPure lres.toOpt ires.toOpt, st2)

termination_by structural fuel _l _i _e _s => fuel

/-- evalRangeExpression: left, then right, then range construction. -/
def evalRangeExpression : Nat → Expr → Expr → Nat → Store → EvalRes × Store
  | 0, _, _, _, st => (.fuelOut, st)
  | fuel + 1, l, r, env, st =>
    let (lres, st1) := Eval fuel (.expr l) env st
    if isAbort lres then (lres, st1)
    else if isErrorRes lres then (lres, st1)
    else
      let (rres, st2) := Eval fuel (.expr r) env st1
      if isAbort rres then (rres, st2)
      else if isErrorRes rres then (rres, st2)
      else (evalRangePure lres.toOpt rres.toOpt, st2)

termination_by structural fuel _l _r _e _s => fuel

/-- The loop of evalHashExpression over key/value pairs in a given visiting
order.  Go ranges over node.Pairs, a map, whose iteration order is
unspecified: a run of the Go code corresponds to this function applied to
some permutation of the literal's pair list. -/
def evalHashPairs : Nat → List (Expr × Expr) → List (HashKey × Obj × Option Obj) → Nat → Store →
    EvalRes × Store
  | 0, _, _, _, st => (.fuelOut, st)
  | _ + 1, [], acc, _, st => (.val (.HashO acc), st)
  | fuel + 1, (k, v) :: rest, acc, env, st =>
    let (kr, st1) := Eval fuel (.expr k) env st
    if isAbort kr then (kr, st1)
    else if isErrorRes kr then (kr, st1)
    else
      match kr.toOpt with
      | none => (.hostPanic "nil pointer dereference", st1)
      | some ko =>
        match hashKeyOf ko with
        | none => (.val (newError ("unusable as hash key: " ++ ko.objType)), st1)
        | some hk =>
          let (vr, st2) := Eval fuel (.expr v) env st1
          if isAbort vr then (vr, st2)
          else if isErrorRes vr then (vr, st2)
          else evalHashPairs fuel rest (hashInsert acc hk ko vr.toOpt) env st2

termination_by structural fuel _p _a _e _s => fuel

/-- evalHashExpression, visiting the pairs in the literal's written order
(one admissible iteration order of the Go map). -/
def evalHashExpression : Nat → List (Expr × Expr) → Nat → Store → EvalRes × Store
  | 0, _, _, st => (.fuelOut, st)
  | fuel + 1, pairs, env, st => evalHashPairs fuel pairs [] env st

termination_by structural fuel _p _e _s => fuel

/-- applyFunction: a Function gets a fresh enclosed environment with the
arguments bound and its body evaluated there, a ReturnValue unwrapped; a
Builtin's native function is invoked directly; anything else is an Error. -/
def applyFunction : Nat → Option Obj → List (Option Obj) → Store → EvalRes × Store
  | 0, _, _, st => (.fuelOut, st)
  | fuel + 1, fn, args, st =>
    match fn with
    | some (.FunctionO params body fenv) =>
      match extendFunctionEnv st fenv params args with
      | none => (.hostPanic "index out of range", st)
      | some (st2, idx) =>
        let (r, st3) := Eval fuel (.block body) idx st2
        (unwrapReturnValue r, st3)
    | some (.BuiltinO tag) => (builtinFn tag args, st)
    | some o => (.val (newError ("not a function: " ++ o.objType)), st)
    | none => (.hostPanic "nil pointer dereference", st)

end

/-- evalExpressions: the loop started with an empty accumulator (this is the
function Go names evalExpressions; Eval invokes the loop directly). -/
def evalExpressions (fuel : Nat) (exprs : List Expr) (env : Nat) (st : Store) :
    ListRes × Store :=
  evalExpressionsLoop fuel exprs [] env st

/-! ### Tokens (package token; the package file is not under src/, so the
token kinds are modelled from the spec's token list in §3 and the lexer test
in src/: identifier, integer, string, the reserved words, the operators,
the delimiters including COLON and the brackets, and end-of-input). -/

/-- Modelled from the spec: the token kinds of package token (the package
itself is missing from src/; the kinds are those named by the spec §3 and
exercised by the lexer test, which includes COLON for `:`). -/
inductive TokenType where
  | IDENT | INT | STRING
  | ASSIGN | PLUS | MINUS | BANG | ASTERISK | SLASH | LT | GT | EQ | NOT_EQ
  | COMMA | SEMICOLON | COLON
  | LPAREN | RPAREN | LBRACE | RBRACE | LBRCKT | RBRCKT
  | FUNCTION | LET | TRUE | FALSE | IF | ELSE | RETURN
  | EOF | ILLEGAL
deriving DecidableEq

/-- Display text of a token type, used in parser diagnostics.  Modelled from
the spec: the Go constants' string values are not under src/, and no claim
depends on the exact text, only on whether diagnostics exist. -/
def TokenType.str : TokenType → String
  | .IDENT => "IDENT" | .INT => "INT" | .STRING => "STRING"
  | .ASSIGN => "=" | .PLUS => "+" | .MINUS => "-" | .BANG => "!"
  | .ASTERISK => "*" | .SLASH => "/" | .LT => "<" | .GT => ">"
  | .EQ => "==" | .NOT_EQ => "!="
  | .COMMA => "," | .SEMICOLON => ";" | .COLON => ":"
  | .LPAREN => "(" | .RPAREN => ")" | .LBRACE => "\x7b" | .RBRACE => "\x7d"
  | .LBRCKT => "[" | .RBRCKT => "]"
  | .FUNCTION => "fn" | .LET => "let" | .TRUE => "true" | .FALSE => "false"
  | .IF => "if" | .ELSE => "else" | .RETURN => "return"
  | .EOF => "EOF" | .ILLEGAL => "ILLEGAL"

structure Token where
  ttype : TokenType
  literal : String
deriving DecidableEq

def eofToken : Token := ⟨.EOF, ""⟩

/-! ### Parser (parser/parser.go)

The parser's AST mirrors the Go pointer structure: an aborted construct is a
nil node (`none`), and a node built around an aborted sub-parse keeps the
nil child.  ParseProgram and parseBlockStatement append every statement
parseStatement returns: the Go `stmt != nil` guard compares a non-nil
interface holding a typed nil pointer, so it never skips (a nil statement is
appended as `none`). -/

mutual

inductive PExpr where
  | PIdent (value : String)
  | PInt (value : Int)
  | PString (value : String)
  | PBool (value : Bool)
  | PPrefix (operator : String) (right : Option PExpr)
  | PInfix (operator : String) (left : Option PExpr) (right : Option PExpr)
  | PIf (condition : Option PExpr) (consequence : List (Option PStmt))
      (alternative : Option (List (Option PStmt)))
  | PFn (parameters : Option (List String)) (body : List (Option PStmt))
  | PCall (function : Option PExpr) (arguments : Option (List (Option PExpr)))
  | PArray (elements : Option (List (Option PExpr)))
  | PIndex (left : Option PExpr) (index : Option PExpr)

inductive PStmt where
  | PLet (name : String) (value : Option PExpr)
  | PReturn (returnValue : Option PExpr)
  | PExprStmt (expression : PExpr)

end

/-- Parser state: the not-yet-delivered lexer output, the diagnostics list,
and the two-token lookahead window. -/
structure ParserState where
  tokens : List Token
  errors : List String
  currToken : Token
  peekToken : Token

/-- Parser.nextToken; a lexer past end-of-input keeps yielding EOF. -/
def pNext (p : ParserState) : ParserState :=
  { p with currToken := p.peekToken,
           peekToken := p.tokens.headD eofToken,
           tokens := p.tokens.tail }

/-- parser.New: empty error list, then two nextToken calls to fill the
lookahead window. -/
def parserNew (toks : List Token) : ParserState :=
  pNext (pNext ⟨toks, [], eofToken, eofToken⟩)

/-- The precedence levels (iota, LOWEST = 1 .. INDEX = 8). -/
def LOWEST : Nat := 1
def EQUALS : Nat := 2
def LESSGREATER : Nat := 3
def SUM : Nat := 4
def PRODUCT : Nat := 5
def PREFIX_P : Nat := 6
def CALL : Nat := 7
def INDEX : Nat := 8

/-- The precedences map.  COLON has no entry (and LBRACE registers no
handler below): the parser of this snapshot knows nothing of ranges or hash
literals. -/
def precedences : TokenType → Option Nat
  | .EQ => some EQUALS
  | .NOT_EQ => some EQUALS
  | .LT => some LESSGREATER
  | .GT => some LESSGREATER
  | .PLUS => some SUM
  | .MINUS => some SUM
  | .SLASH => some PRODUCT
  | .ASTERISK => some PRODUCT
  | .LPAREN => some CALL
  | .LBRCKT => some INDEX
  | _ => none

def peekPrecedence (p : ParserState) : Nat :=
  (precedences p.peekToken.ttype).getD LOWEST

def currPrecedence (p : ParserState) : Nat :=
  (precedences p.currToken.ttype).getD LOWEST

def currTokenIs (p : ParserState) (t : TokenType) : Bool := p.currToken.ttype = t

def peekTokenIs (p : ParserState) (t : TokenType) : Bool := p.peekToken.ttype = t

/-- appendPeekError. -/
def appendPeekError (p : ParserState) (expected : TokenType) : ParserState :=
  { p with errors := p.errors ++
      ["expected next token to be " ++ expected.str ++ ", got " ++ p.peekToken.ttype.str ++ " instead"] }

/-- expectPeek: advance on a match, record a diagnostic otherwise. -/
def expectPeek (p : ParserState) (t : TokenType) : Bool × ParserState :=
  if peekTokenIs p t then (true, pNext p) else (false, appendPeekError p t)

/-- noPrefixParseFnError. -/
def noPrefixParseFnError (p : ParserState) (t : TokenType) : ParserState :=
  { p with errors := p.errors ++ ["no prefix parse function for " ++ t.str ++ " found"] }

/-- strconv.ParseInt(s, 0, 64) on a lexer INT literal (a non-empty digit
run): its numeric value when it fits int64, otherwise failure. -/
def digitsVal (cs : List Char) : Nat :=
  cs.foldl (fun n c => n * 10 + (c.toNat - 48)) 0

def parseIntLit (s : String) : Option Int :=
  if s.toList ≠ [] ∧ s.toList.all Char.isDigit ∧ (digitsVal s.toList : Int) ≤ 2 ^ 63 - 1 then
    some (digitsVal s.toList : Int)
  else none

/-- parseIntegerLiteral. -/
def parseIntegerLiteral (p : ParserState) : Option PExpr × ParserState :=
  match parseIntLit p.currToken.literal with
  | some v => (some (.PInt v), p)
  | none =>
    (none, { p with errors := p.errors ++
      ["could not parse \"" ++ p.currToken.literal ++ "\" as integer"] })

mutual

/-- parseStatement: let / return / expression statement dispatch. -/
def parseStatement : Nat → ParserState → Option PStmt × ParserState
  | 0, p => (none, p)
  | fuel + 1, p =>
    if currTokenIs p .LET then parseLetStatement fuel p
    else if currTokenIs p .RETURN then parseReturnStatement fuel p
    else parseExpressionStatement fuel p
termination_by structural fuel _p => fuel

/-- parseLetStatement: let IDENT = expr [;]. -/
def parseLetStatement : Nat → ParserState → Option PStmt × ParserState
  | 0, p => (none, p)
  | fuel + 1, p =>
    match expectPeek p .IDENT with
    | (false, p) => (none, p)
    | (true, p) =>
      let name := p.currToken.literal
      match expectPeek p .ASSIGN with
      | (false, p) => (none, p)
      | (true, p) =>
        let p := pNext p
        let (value, p) := parseExpression fuel LOWEST p
        let p := if peekTokenIs p .SEMICOLON then pNext p else p
        (some (.PLet name value), p)
termination_by structural fuel _p => fuel

/-- parseReturnStatement: return expr [;]. -/
def parseReturnStatement : Nat → ParserState → Option PStmt × ParserState
  | 0, p => (none, p)
  | fuel + 1, p =>
    let p := pNext p
    let (value, p) := parseExpression fuel LOWEST p
    let p := if peekTokenIs p .SEMICOLON then pNext p else p
    (some (.PReturn value), p)
termination_by structural fuel _p => fuel

/-- parseExpressionStatement; a failed expression parse yields a nil
statement. -/
def parseExpressionStatement : Nat → ParserState → Option PStmt × ParserState
  | 0, p => (none, p)
  | fuel + 1, p =>
    match parseExpression fuel LOWEST p with
    | (none, p) => (none, p)
    | (some e, p) =>
      let p := if peekTokenIs p .SEMICOLON then pNext p else p
      (some (.PExprStmt e), p)
termination_by structural fuel _p => fuel

/-- parseExpression: prefix dispatch (per the table registered in New) and
then the precedence-climbing loop. -/
def parseExpression : Nat → Nat → ParserState → Option PExpr × ParserState
  | 0, _, p => (none, p)
  | fuel + 1, prec, p =>
    let (leftExp, p) :=
      match p.currToken.ttype with
      | .IDENT => (some (.PIdent p.currToken.literal), p)
      | .INT => parseIntegerLiteral p
      | .STRING => (some (.PString p.currToken.literal), p)
      | .BANG => parsePrefixExpression fuel p
      | .MINUS => parsePrefixExpression fuel p
      | .TRUE => (some (.PBool true), p)
      | .FALSE => (some (.PBool false), p)
      | .LPAREN => parseGroupedExpression fuel p
      | .IF => parseIfExpression fuel p
      | .FUNCTION => parseFunctionLiteral fuel p
      | .LBRCKT => parseArrayLiteral fuel p
      | t => (none, noPrefixParseFnError p t)
    parseExprLoop fuel prec leftExp p
termination_by structural fuel _prec _p => fuel

/-- The for loop of parseExpression: as long as the peek token is not a
semicolon and binds tighter than the minimum precedence, consume it with its
registered infix handler (the table registered in New; a token with no
handler ends the loop). -/
def parseExprLoop : Nat → Nat → Option PExpr → ParserState → Option PExpr × ParserState
  | 0, _, leftExp, p => (leftExp, p)
  | fuel + 1, prec, leftExp, p =>
    if ¬ peekTokenIs p .SEMICOLON ∧ prec < peekPrecedence p then
      match p.peekToken.ttype with
      | .PLUS | .MINUS | .SLASH | .ASTERISK | .EQ | .NOT_EQ | .LT | .GT =>
        let p := pNext p
        let (leftExp, p) := parseInfixExpression fuel leftExp p
        parseExprLoop fuel prec leftExp p
      | .LPAREN =>
        let p := pNext p
        let (leftExp, p) := parseCallExpression fuel leftExp p
        parseExprLoop fuel prec leftExp p
      | .LBRCKT =>
        let p := pNext p
        let (leftExp, p) := parseIndexExpression fuel leftExp p
        parseExprLoop fuel prec leftExp p
      | _ => (leftExp, p)
    else (leftExp, p)
termination_by structural fuel _prec _l _p => fuel

/-- parsePrefixExpression: operator, then the operand at PREFIX level. -/
def parsePrefixExpression : Nat → ParserState → Option PExpr × ParserState
  | 0, p => (none, p)
  | fuel + 1, p =>
    let op := p.currToken.literal
    let p := pNext p
    let (right, p) := parseExpression fuel PREFIX_P p
    (some (.PPrefix op right), p)
termination_by structural fuel _p => fuel

/-- parseInfixExpression: right operand at the operator's own precedence. -/
def parseInfixExpression : Nat → Option PExpr → ParserState → Option PExpr × ParserState
  | 0, _, p => (none, p)
  | fuel + 1, left, p =>
    let op := p.currToken.literal
    let prec := currPrecedence p
    let p := pNext p
    let (right, p) := parseExpression fuel prec p
    (some (.PInfix op left right), p)
termination_by structural fuel _l _p => fuel

/-- parseCallExpression: the argument list up to `)`. -/
def parseCallExpression : Nat → Option PExpr → ParserState → Option PExpr × ParserState
  | 0, _, p => (none, p)
  | fuel + 1, function, p =>
    let (args, p) := parseExpressionList fuel .RPAREN p
    (some (.PCall function args), p)
termination_by structural fuel _f _p => fuel

/-- parseExpressionList: comma-separated expressions up to `endT`; a missing
end token aborts with a nil list (after recording the expectPeek error). -/
def parseExpressionList : Nat → TokenType → ParserState →
    Option (List (Option PExpr)) × ParserState
  | 0, _, p => (none, p)
  | fuel + 1, endT, p =>
    if peekTokenIs p endT then (some [], pNext p)
    else
      let p := pNext p
      let (e, p) := parseExpression fuel LOWEST p
      parseExpressionListRest fuel endT [e] p
termination_by structural fuel _t _p => fuel

/-- The comma loop of parseExpressionList, then the closing expectPeek. -/
def parseExpressionListRest : Nat → TokenType → List (Option PExpr) → ParserState →
    Option (List (Option PExpr)) × ParserState
  | 0, _, _, p => (none, p)
  | fuel + 1, endT, acc, p =>
    if peekTokenIs p .COMMA then
      let p := pNext (pNext p)
      let (e, p) := parseExpression fuel LOWEST p
      parseExpressionListRest fuel endT (acc ++ [e]) p
    else
      match expectPeek p endT with
      | (true, p) => (some acc, p)
      | (false, p) => (none, p)
termination_by structural fuel _t _a _p => fuel

/-- parseIndexExpression: the index expression and the closing `]`. -/
def parseIndexExpression : Nat → Option PExpr → ParserState → Option PExpr × ParserState
  | 0, _, p => (none, p)
  | fuel + 1, array, p =>
    let p := pNext p
    let (idx, p) := parseExpression fuel LOWEST p
    match expectPeek p .RBRCKT with
    | (true, p) => (some (.PIndex array idx), p)
    | (false, p) => (none, p)
termination_by structural fuel _a _p => fuel

/-- parseGroupedExpression: (expr). -/
def parseGroupedExpression : Nat → ParserState → Option PExpr × ParserState
  | 0, p => (none, p)
  | fuel + 1, p =>
    let p := pNext p
    let (e, p) := parseExpression fuel LOWEST p
    match expectPeek p .RPAREN with
    | (true, p) => (e, p)
    | (false, p) => (none, p)
termination_by structural fuel _p => fuel

/-- parseIfExpression: if (cond) block [else block]. -/
def parseIfExpression : Nat → ParserState → Option PExpr × ParserState
  | 0, p => (none, p)
  | fuel + 1, p =>
    match expectPeek p .LPAREN with
    | (false, p) => (none, p)
    | (true, p) =>
      let p := pNext p
      let (cond, p) := parseExpression fuel LOWEST p
      match expectPeek p .RPAREN with
      | (false, p) => (none, p)
      | (true, p) =>
        match expectPeek p .LBRACE with
        | (false, p) => (none, p)
        | (true, p) =>
          let (cons, p) := parseBlockStatement fuel p
          if peekTokenIs p .ELSE then
            let p := pNext p
            match expectPeek p .LBRACE with
            | (false, p) => (none, p)
            | (true, p) =>
              let (alt, p) := parseBlockStatement fuel p
              (some (.PIf cond cons (some alt)), p)
          else (some (.PIf cond cons none), p)
termination_by structural fuel _p => fuel

/-- parseFunctionLiteral: fn (params) block. -/
def parseFunctionLiteral : Nat → ParserState → Option PExpr × ParserState
  | 0, p => (none, p)
  | fuel + 1, p =>
    match expectPeek p .LPAREN with
    | (false, p) => (none, p)
    | (true, p) =>
      let (params, p) := parseFunctionParams fuel p
      match expectPeek p .LBRACE with
      | (false, p) => (none, p)
      | (true, p) =>
        let (body, p) := parseBlockStatement fuel p
        (some (.PFn params body), p)
termination_by structural fuel _p => fuel

/-- parseArrayLiteral: the element list up to `]`. -/
def parseArrayLiteral : Nat → ParserState → Option PExpr × ParserState
  | 0, p => (none, p)
  | fuel + 1, p =>
    let (elements, p) := parseExpressionList fuel .RBRCKT p
    (some (.PArray elements), p)
termination_by structural fuel _p => fuel

/-- parseFunctionParams: comma-separated identifiers up to `)`. -/
def parseFunctionParams : Nat → ParserState → Option (List String) × ParserState
  | 0, p => (none, p)
  | fuel + 1, p =>
    if peekTokenIs p .RPAREN then (some [], pNext p)
    else
      let p := pNext p
      parseFunctionParamsRest fuel [p.currToken.literal] p

/-- The comma loop of parseFunctionParams, then the closing expectPeek. -/
def parseFunctionParamsRest : Nat → List String → ParserState →
    Option (List String) × ParserState
  | 0, _, p => (none, p)
  | fuel + 1, acc, p =>
    if peekTokenIs p .COMMA then
      let p := pNext (pNext p)
      parseFunctionParamsRest fuel (acc ++ [p.currToken.literal]) p
    else
      match expectPeek p .RPAREN with
      | (true, p) => (some acc, p)
      | (false, p) => (none, p)
termination_by structural fuel _a _p => fuel

/-- parseBlockStatement: statements until `}` or end-of-input (every parsed
statement is appended; a typed-nil statement arrives as `none`). -/
def parseBlockStatement : Nat → ParserState → List (Option PStmt) × ParserState
  | 0, p => ([], p)
  | fuel + 1, p =>
    parseBlockLoop fuel [] (pNext p)
termination_by structural fuel _p => fuel

/-- The statement loop of parseBlockStatement. -/
def parseBlockLoop : Nat → List (Option PStmt) → ParserState →
    List (Option PStmt) × ParserState
  | 0, acc, p => (acc, p)
  | fuel + 1, acc, p =>
    if ¬ currTokenIs p .RBRACE ∧ ¬ currTokenIs p .EOF then
      let (stmt, p) := parseStatement fuel p
      parseBlockLoop fuel (acc ++ [stmt]) (pNext p)
    else (acc, p)
termination_by structural fuel _a _p => fuel

end

/-- The statement loop of ParseProgram. -/
def parseProgramLoop : Nat → List (Option PStmt) → ParserState →
    List (Option PStmt) × ParserState
  | 0, acc, p => (acc, p)
  | fuel + 1, acc, p =>
    if ¬ currTokenIs p .EOF then
      let (stmt, p) := parseStatement fuel p
      parseProgramLoop fuel (acc ++ [stmt]) (pNext p)
    else (acc, p)

/-- ParseProgram over a lexer token stream: the parsed statement list and
the final parser state (whose `errors` is the diagnostics list). -/
def ParseProgram (fuel : Nat) (toks : List Token) : List (Option PStmt) × ParserState :=
  parseProgramLoop fuel [] (parserNew toks)

/-! ## Concrete fixtures -/

/-- A fresh interpreter store: the single top-level frame of NewEnvironment. -/
def startStore : Store := [emptyFrame]

/-- The token stream of `1:5` (per the spec's token kinds; the lexer test in
src/ lexes `[1:5]` to LBRCKT INT COLON INT RBRCKT). -/
def toksRange : List Token := [⟨.INT, "1"⟩, ⟨.COLON, ":"⟩, ⟨.INT, "5"⟩]

/-- The token stream of the hash literal `{1: 2}`. -/
def toksHash : List Token :=
  [⟨.LBRACE, "\x7b"⟩, ⟨.INT, "1"⟩, ⟨.COLON, ":"⟩, ⟨.INT, "2"⟩, ⟨.RBRACE, "\x7d"⟩]

/-- The token stream of `[1,2,3][1:2]`. -/
def toksIdxRange : List Token :=
  [⟨.LBRCKT, "["⟩, ⟨.INT, "1"⟩, ⟨.COMMA, ","⟩, ⟨.INT, "2"⟩, ⟨.COMMA, ","⟩, ⟨.INT, "3"⟩,
   ⟨.RBRCKT, "]"⟩, ⟨.LBRCKT, "["⟩, ⟨.INT, "1"⟩, ⟨.COLON, ":"⟩, ⟨.INT, "2"⟩, ⟨.RBRCKT, "]"⟩]

/-- The token stream of `let x = 5; [1,2,3][1];` (a control input the
parser accepts without diagnostics). -/
def toksOk : List Token :=
  [⟨.LET, "let"⟩, ⟨.IDENT, "x"⟩, ⟨.ASSIGN, "="⟩, ⟨.INT, "5"⟩, ⟨.SEMICOLON, ";"⟩,
   ⟨.LBRCKT, "["⟩, ⟨.INT, "1"⟩, ⟨.COMMA, ","⟩, ⟨.INT, "2"⟩, ⟨.COMMA, ","⟩, ⟨.INT, "3"⟩,
   ⟨.RBRCKT, "]"⟩, ⟨.LBRCKT, "["⟩, ⟨.INT, "1"⟩, ⟨.RBRCKT, "]"⟩, ⟨.SEMICOLON, ";"⟩]

/-- The statement `if (true) { return 1; }`. -/
def exampleReturnIf : Stmt :=
  .ExprStmt (.IfExpr (.BooleanLit true) (.mk [.ReturnStmt (.IntegerLiteral 1)]) none)

/-- The program `let a = [1, 2]; let b = push(a, 3); a;`. -/
def pushProgramA : Program :=
  [.LetStmt "a" (.ArrayLiteral [.IntegerLiteral 1, .IntegerLiteral 2]),
   .LetStmt "b" (.CallExpr (.Identifier "push") [.Identifier "a", .IntegerLiteral 3]),
   .ExprStmt (.Identifier "a")]

/-- The program `let a = [1, 2]; let b = push(a, 3); b;`. -/
def pushProgramB : Program :=
  [.LetStmt "a" (.ArrayLiteral [.IntegerLiteral 1, .IntegerLiteral 2]),
   .LetStmt "b" (.CallExpr (.Identifier "push") [.Identifier "a", .IntegerLiteral 3]),
   .ExprStmt (.Identifier "b")]

/-- The program `let f = fn(x) { x; }; f();`. -/
def missingArgProgram : Program :=
  [.LetStmt "f" (.FunctionLiteral ["x"] (.mk [.ExprStmt (.Identifier "x")])),
   .ExprStmt (.CallExpr (.Identifier "f") [])]

/-! ## Claim theorems -/

/-- C1: the claim says parse_program accepts the spec grammar — in
particular the range form `expr:expr` and the hash form `{expr:expr, ...}` —
with an empty diagnostics list.  The code contradicts it: parser.New
registers no prefix handler for the `{` token and no handler at all (and no
precedence) for the `:` token, so `1:5`, `{1: 2}` and `[1,2,3][1:2]` all
record diagnostics, while a control program in the handled fragment parses
with none.  The evaluator's dedicated RangeExpression/HashLiteral cases show
the parser support is intended and missing (a code bug, not spec excess). -/
theorem c1_parser_rejects_range_and_hash :
    (ParseProgram 50 toksRange).2.errors ≠ [] ∧
    (ParseProgram 50 toksHash).2.errors ≠ [] ∧
    (ParseProgram 50 toksIdxRange).2.errors ≠ [] ∧
    (ParseProgram 50 toksOk).2.errors = [] := by
  refine ⟨?_, ?_, ?_, rfl⟩ <;> decide

/-- C3: a BlockStatement returns, as-is and at once, the first statement
result that is a ReturnValue or an Error (the remaining statements — the
generic `rest` — are never evaluated); a Program unwraps a top-level
ReturnValue into its inner value and propagates an Error unchanged, aborting
the rest; the two-statement program `if (true) { return 1; } 2;` therefore
yields Integer 1 whatever follows the if, and as a bare block it yields the
still-wrapped ReturnValue(1). -/
theorem c3_return_discipline :
    (∀ fuel s rest env st st1 v,
        Eval fuel (.stmt s) env st = (.val (.ReturnValue v), st1) →
        evalBlockStatement (fuel + 1) (s :: rest) env st = (.val (.ReturnValue v), st1)) ∧
    (∀ fuel s rest env st st1 m,
        Eval fuel (.stmt s) env st = (.val (.ErrorO m), st1) →
        evalBlockStatement (fuel + 1) (s :: rest) env st = (.val (.ErrorO m), st1)) ∧
    (∀ fuel s rest env st st1 v,
        Eval fuel (.stmt s) env st = (.val (.ReturnValue v), st1) →
        evalProgram (fuel + 1) (s :: rest) env st = (optToRes v, st1)) ∧
    (∀ fuel s rest env st st1 m,
        Eval fuel (.stmt s) env st = (.val (.ErrorO m), st1) →
        evalProgram (fuel + 1) (s :: rest) env st = (.val (.ErrorO m), st1)) ∧
    (∀ rest, evalProgram 20 (exampleReturnIf :: rest) 0 startStore
        = (.val (.Integer 1), startStore)) ∧
    evalBlockStatement 20 [exampleReturnIf, Stmt.ExprStmt (.IntegerLiteral 2)] 0 startStore
      = (.val (.ReturnValue (some (.Integer 1))), startStore) := by
  refine ⟨?_, ?_, ?_, ?_, ?_, rfl⟩
  · intro fuel s rest env st st1 v h
    simp [evalBlockStatement, h, isAbort]
  · intro fuel s rest env st st1 m h
    simp [evalBlockStatement, h, isAbort]
  · intro fuel s rest env st st1 v h
    simp [evalProgram, h, isAbort]
  · intro fuel s rest env st st1 m h
    simp [evalProgram, h, isAbort]
  · intro rest
    have h : Eval 19 (.stmt exampleReturnIf) 0 startStore
        = (.val (.ReturnValue (some (.Integer 1))), startStore) := rfl
    simp [evalProgram, h, isAbort, optToRes]

/-- Witness for C3 at concrete inputs: a one-statement block `return 7;`
propagates the wrapped ReturnValue, and the same program unwraps it to 7. -/
theorem c3_return_discipline_witness :
    evalBlockStatement 6 [Stmt.ReturnStmt (.IntegerLiteral 7)] 0 startStore
      = (.val (.ReturnValue (some (.Integer 7))), startStore) ∧
    evalProgram 6 [Stmt.ReturnStmt (.IntegerLiteral 7)] 0 startStore
      = (.val (.Integer 7), startStore) :=
  ⟨c3_return_discipline.1 5 (Stmt.ReturnStmt (.IntegerLiteral 7)) [] 0 startStore startStore
      (some (.Integer 7)) rfl,
   c3_return_discipline.2.2.1 5 (Stmt.ReturnStmt (.IntegerLiteral 7)) [] 0 startStore startStore
      (some (.Integer 7)) rfl⟩

/-- C9: push on an Array of length n and a value yields a new Array whose
first n elements are the original's and whose last element is the value (so
length n + 1); the original binding still evaluates to the original elements
afterwards (the program `let a = [1,2]; let b = push(a,3); ...` yields
[1,2,3] for b and still [1,2] for a); len yields the Integer length of a
String or Array and an Error for any other argument type or arity. -/
theorem c9_push_len_builtins :
    (∀ es v, pushBuiltin [some (.ArrayO es), v] = .val (.ArrayO (es ++ [v])) ∧
        (es ++ [v]).length = es.length + 1 ∧ (es ++ [v]).take es.length = es ∧
        (es ++ [v]).getLast? = some v) ∧
    (Eval 50 (.prog pushProgramB) 0 startStore).1
      = .val (.ArrayO [some (.Integer 1), some (.Integer 2), some (.Integer 3)]) ∧
    (Eval 50 (.prog pushProgramA) 0 startStore).1
      = .val (.ArrayO [some (.Integer 1), some (.Integer 2)]) ∧
    (∀ s, lenBuiltin [some (.StringO s)] = .val (.Integer (s.length : Int))) ∧
    (∀ es, lenBuiltin [some (.ArrayO es)] = .val (.Integer (es.length : Int))) ∧
    (∀ o : Obj, o.objType ≠ STRING_OBJ → o.objType ≠ ARRAY_OBJ →
        lenBuiltin [some o] = .val (.ErrorO ("argument to `len` not supported, got " ++ o.objType))) ∧
    (∀ args : List (Option Obj), args.length ≠ 1 →
        lenBuiltin args = .val (.ErrorO ("wrong number of arguments. got=" ++
          toString args.length ++ ", want=1"))) := by
  refine ⟨?_, rfl, rfl, ?_, ?_, ?_, ?_⟩
  · intro es v
    refine ⟨rfl, by simp, by simp, by simp⟩
  · intro s
    simp [lenBuiltin]
  · intro es
    simp [lenBuiltin]
  · intro o h1 h2
    cases o <;> simp_all [lenBuiltin, Obj.objType, STRING_OBJ, ARRAY_OBJ, newError]
  · intro args h
    simp [lenBuiltin, h, newError]

/-- Witness for C9 at concrete inputs: pushing 3 onto [1, 2] and taking the
length of "ab" and of a wrong-typed / wrong-arity argument. -/
theorem c9_push_len_builtins_witness :
    pushBuiltin [some (.ArrayO [some (.Integer 1), some (.Integer 2)]), some (.Integer 3)]
      = .val (.ArrayO [some (.Integer 1), some (.Integer 2), some (.Integer 3)]) ∧
    lenBuiltin [some (.StringO [97, 98])] = .val (.Integer 2) ∧
    lenBuiltin [some (.Integer 9)]
      = .val (.ErrorO ("argument to `len` not supported, got " ++ INTEGER_OBJ)) ∧
    lenBuiltin [] = .val (.ErrorO "wrong number of arguments. got=0, want=1") :=
  ⟨(c9_push_len_builtins.1 [some (.Integer 1), some (.Integer 2)] (some (.Integer 3))).1,
   c9_push_len_builtins.2.2.2.1 [97, 98],
   c9_push_len_builtins.2.2.2.2.2.1 (.Integer 9) (by decide) (by decide),
   c9_push_len_builtins.2.2.2.2.2.2 [] (by decide)⟩

/-- C10: extendFunctionEnv binds every parameter positionally with no arity
check, so a user Function applied to fewer arguments than parameters hits
the out-of-range access args[paramIdx] — a host panic, not a "wrong number
of arguments" Error; the program `let f = fn(x) { x; }; f();` panics. -/
theorem c10_missing_arguments_panic :
    (∀ st fnEnv (params : List String) (args : List (Option Obj)),
        args.length < params.length → extendFunctionEnv st fnEnv params args = none) ∧
    (∀ fuel params body fnEnv (args : List (Option Obj)) st,
        args.length < params.length →
        applyFunction (fuel + 1) (some (.FunctionO params body fnEnv)) args st
          = (.hostPanic "index out of range", st)) ∧
    (Eval 50 (.prog missingArgProgram) 0 startStore).1 = .hostPanic "index out of range" := by
  have hbind : ∀ (params : List String) (args : List (Option Obj)) st idx,
      args.length < params.length → bindParams st idx params args = none := by
    intro params
    induction params with
    | nil => intro args st idx h; simp at h
    | cons p ps ih =>
      intro args st idx h
      cases args with
      | nil => rfl
      | cons a rest =>
        simp only [bindParams]
        exact ih rest _ idx (by simpa using h)
  refine ⟨?_, ?_, rfl⟩
  · intro st fnEnv params args h
    simp [extendFunctionEnv, newEnclosedEnvironment, hbind params args _ _ h]
  · intro fuel params body fnEnv args st h
    simp [applyFunction, extendFunctionEnv, newEnclosedEnvironment, hbind params args _ _ h]

/-- Witness for C10 at a concrete input: a one-parameter function applied to
no arguments panics. -/
theorem c10_missing_arguments_panic_witness :
    applyFunction 3 (some (.FunctionO ["x"] (.mk [.ExprStmt (.Identifier "x")]) 0)) [] startStore
      = (.hostPanic "index out of range", startStore) :=
  c10_missing_arguments_panic.2.1 2 ["x"] (.mk [.ExprStmt (.Identifier "x")]) 0 [] startStore
    (by decide)

/-- C2: infix == and != compare two Integers by numeric value and two
Strings by text; between two operands that are neither Integer nor String
they return exactly the pointer comparison (which is value-correct for
Boolean and Null, the manufactured singletons, per fallbackPtrEq); any other
operator between mismatched types is a "type mismatch" Error; an unhandled
operator between matching types is an "unknown operator" Error. -/
theorem c2_infix_semantics :
    (∀ ptrEq (lv rv : Int),
        evalInfixExpression ptrEq "==" (some (.Integer lv)) (some (.Integer rv))
          = .val (nativeBooleanToObject (lv = rv)) ∧
        evalInfixExpression ptrEq "!=" (some (.Integer lv)) (some (.Integer rv))
          = .val (nativeBooleanToObject (lv ≠ rv))) ∧
    (∀ ptrEq (ls rs : List Nat),
        evalInfixExpression ptrEq "==" (some (.StringO ls)) (some (.StringO rs))
          = .val (nativeBooleanToObject (ls = rs)) ∧
        evalInfixExpression ptrEq "!=" (some (.StringO ls)) (some (.StringO rs))
          = .val (nativeBooleanToObject (ls ≠ rs))) ∧
    (∀ ptrEq (l r : Obj), l.objType ≠ INTEGER_OBJ → l.objType ≠ STRING_OBJ →
        r.objType ≠ INTEGER_OBJ → r.objType ≠ STRING_OBJ →
        evalInfixExpression ptrEq "==" (some l) (some r) = .val (nativeBooleanToObject ptrEq) ∧
        evalInfixExpression ptrEq "!=" (some l) (some r) = .val (nativeBooleanToObject (!ptrEq))) ∧
    (∀ a b, fallbackPtrEq (.BooleanO a) (.BooleanO b) = decide (a = b)) ∧
    (fallbackPtrEq .NullO .NullO = true) ∧
    (∀ ptrEq op (l r : Obj), op ≠ "==" → op ≠ "!=" → l.objType ≠ r.objType →
        evalInfixExpression ptrEq op (some l) (some r)
          = .val (.ErrorO ("type mismatch: " ++ l.objType ++ " " ++ op ++ " " ++ r.objType))) ∧
    (∀ ptrEq op (lv rv : Int), op ∉ (["+", "-", "*", "/", ">", "<", "==", "!="] : List String) →
        evalInfixExpression ptrEq op (some (.Integer lv)) (some (.Integer rv))
          = .val (.ErrorO ("unknown operator: " ++ INTEGER_OBJ ++ " " ++ op ++ " " ++ INTEGER_OBJ))) ∧
    (∀ ptrEq op (ls rs : List Nat), op ∉ (["+", "==", "!="] : List String) →
        evalInfixExpression ptrEq op (some (.StringO ls)) (some (.StringO rs))
          = .val (.ErrorO ("unknown operator: " ++ STRING_OBJ ++ " " ++ op ++ " " ++ STRING_OBJ))) ∧
    (∀ ptrEq op (l r : Obj), op ≠ "==" → op ≠ "!=" →
        l.objType = r.objType → l.objType ≠ INTEGER_OBJ → l.objType ≠ STRING_OBJ →
        evalInfixExpression ptrEq op (some l) (some r)
          = .val (.ErrorO ("unknown operator: " ++ l.objType ++ " " ++ op ++ " " ++ r.objType))) := by
  refine ⟨?_, ?_, ?_, ?_, rfl, ?_, ?_, ?_, ?_⟩
  · intro ptrEq lv rv
    constructor <;> simp [evalInfixExpression, evalIntegerInfixExpression, nativeBooleanToObject]
  · intro ptrEq ls rs
    constructor <;> simp [evalInfixExpression, evalStringInfixExpression, nativeBooleanToObject]
  · intro ptrEq l r h1 h2 h3 h4
    cases l <;> cases r <;>
      simp_all [evalInfixExpression, Obj.objType, INTEGER_OBJ, STRING_OBJ]
  · intro a b
    cases a <;> cases b <;> simp [fallbackPtrEq]
  · intro ptrEq op l r h1 h2 h3
    cases l <;> cases r <;>
      simp_all [evalInfixExpression, Obj.objType, newError,
        INTEGER_OBJ, STRING_OBJ, BOOLEAN_OBJ, NULL_OBJ, RETURN_VALUE_OBJ, ERROR_OBJ,
        FUNCTION_OBJ, BUILTIN_OBJ, ARRAY_OBJ, RANGE_OBJ, HASH_OBJ]
  · intro ptrEq op lv rv h
    simp only [List.mem_cons, List.not_mem_nil, or_false, not_or] at h
    obtain ⟨h1, h2, h3, h4, h5, h6, h7, h8⟩ := h
    simp [evalInfixExpression, evalIntegerInfixExpression, h1, h2, h3, h4, h5, h6, h7, h8, newError]
  · intro ptrEq op ls rs h
    simp only [List.mem_cons, List.not_mem_nil, or_false, not_or] at h
    obtain ⟨h1, h2, h3⟩ := h
    simp [evalInfixExpression, evalStringInfixExpression, h1, h2, h3, newError]
  · intro ptrEq op l r h1 h2 h3 h4 h5
    cases l <;> cases r <;>
      simp_all [evalInfixExpression, Obj.objType, newError,
        INTEGER_OBJ, STRING_OBJ, BOOLEAN_OBJ, NULL_OBJ, RETURN_VALUE_OBJ, ERROR_OBJ,
        FUNCTION_OBJ, BUILTIN_OBJ, ARRAY_OBJ, RANGE_OBJ, HASH_OBJ]

/-- Witness for C2 at concrete inputs: 2 == 2 is the TRUE singleton, true ==
true falls back to the (singleton-correct) pointer comparison, 1 + true is a
type mismatch, true + true is an unknown operator. -/
theorem c2_infix_semantics_witness :
    evalInfixExpression false "==" (some (.Integer 2)) (some (.Integer 2))
      = .val (.BooleanO true) ∧
    evalInfixExpression (fallbackPtrEq (.BooleanO true) (.BooleanO true)) "=="
      (some (.BooleanO true)) (some (.BooleanO true)) = .val (.BooleanO true) ∧
    evalInfixExpression false "+" (some (.Integer 1)) (some (.BooleanO true))
      = .val (.ErrorO "type mismatch: INTEGER + BOOLEAN") ∧
    evalInfixExpression false "+" (some (.BooleanO true)) (some (.BooleanO true))
      = .val (.ErrorO "unknown operator: BOOLEAN + BOOLEAN") := by
  refine ⟨?_, ?_, ?_, ?_⟩
  · have h := (c2_infix_semantics.1 false 2 2).1
    simpa [nativeBooleanToObject] using h
  · have h := (c2_infix_semantics.2.2.1 (fallbackPtrEq (.BooleanO true) (.BooleanO true))
      (.BooleanO true) (.BooleanO true) (by decide) (by decide) (by decide) (by decide)).1
    simpa [fallbackPtrEq, nativeBooleanToObject] using h
  · have h := c2_infix_semantics.2.2.2.2.2.1 false "+" (.Integer 1) (.BooleanO true)
      (by decide) (by decide) (by decide)
    simpa [Obj.objType, INTEGER_OBJ, BOOLEAN_OBJ] using h
  · have h := c2_infix_semantics.2.2.2.2.2.2.2.2 false "+" (.BooleanO true) (.BooleanO true)
      (by decide) (by decide) (by decide) (by decide) (by decide)
    simpa [Obj.objType, BOOLEAN_OBJ] using h

/-- C5: a value is falsy exactly when it is Boolean false or Null (Integer 0
and the empty String are truthy); an if expression evaluates the condition
and then exactly one branch — the consequence when truthy, the alternative
when present, NULL otherwise — with the untaken branch fully generic and so
never evaluated; prefix ! returns the Boolean negation of the operand's
truthiness (so !5 is FALSE, not an error); prefix - errors on every
non-Integer operand. -/
theorem c5_truthiness_if_bang_minus :
    (∀ o : Obj, isTruthy (some o) = false ↔ (o = .BooleanO false ∨ o = .NullO)) ∧
    isTruthy (some (.Integer 0)) = true ∧
    isTruthy (some (.StringO [])) = true ∧
    (∀ fuel cond cons alt env st c st1,
        Eval fuel (.expr cond) env st = (.val c, st1) → isErrorRes (.val c) = false →
        isTruthy (some c) = true →
        evalIfExpression (fuel + 1) cond cons alt env st = Eval fuel (.block cons) env st1) ∧
    (∀ fuel cond cons a env st c st1,
        Eval fuel (.expr cond) env st = (.val c, st1) →
        isTruthy (some c) = false →
        evalIfExpression (fuel + 1) cond cons (some a) env st = Eval fuel (.block a) env st1) ∧
    (∀ fuel cond cons env st c st1,
        Eval fuel (.expr cond) env st = (.val c, st1) →
        isTruthy (some c) = false →
        evalIfExpression (fuel + 1) cond cons none env st = (.val .NullO, st1)) ∧
    (∀ o : Obj,
        evalPrefixExpression "!" (some o) = .val (nativeBooleanToObject (!(isTruthy (some o))))) ∧
    evalPrefixExpression "!" (some (.Integer 5)) = .val (.BooleanO false) ∧
    (∀ o : Obj, o.objType ≠ INTEGER_OBJ →
        evalPrefixExpression "-" (some o) = .val (.ErrorO ("unknown operator: -" ++ o.objType))) := by
  have hfalsy : ∀ o : Obj, isTruthy (some o) = false ↔ (o = .BooleanO false ∨ o = .NullO) := by
    intro o
    match o with
    | .BooleanO true => simp [isTruthy]
    | .BooleanO false => simp [isTruthy]
    | .NullO => simp [isTruthy]
    | .Integer v => simp [isTruthy]
    | .StringO s => simp [isTruthy]
    | .ReturnValue v => simp [isTruthy]
    | .ErrorO m => simp [isTruthy]
    | .FunctionO p b e => simp [isTruthy]
    | .BuiltinO f => simp [isTruthy]
    | .ArrayO es => simp [isTruthy]
    | .RangeO a b => simp [isTruthy]
    | .HashO ps => simp [isTruthy]
  refine ⟨hfalsy, rfl, rfl, ?_, ?_, ?_, ?_, rfl, ?_⟩
  · intro fuel cond cons alt env st c st1 h herr htru
    simp [evalIfExpression, h, isAbort, herr, EvalRes.toOpt, htru]
  · intro fuel cond cons a env st c st1 h hfal
    have herr : isErrorRes (.val c) = false := by
      rcases (hfalsy c).mp hfal with h1 | h1 <;> simp [h1, isErrorRes]
    simp [evalIfExpression, h, isAbort, herr, EvalRes.toOpt, hfal]
  · intro fuel cond cons env st c st1 h hfal
    have herr : isErrorRes (.val c) = false := by
      rcases (hfalsy c).mp hfal with h1 | h1 <;> simp [h1, isErrorRes]
    simp [evalIfExpression, h, isAbort, herr, EvalRes.toOpt, hfal]
  · intro o
    match o with
    | .BooleanO true => rfl
    | .BooleanO false => rfl
    | .NullO => rfl
    | .Integer v => rfl
    | .StringO s => rfl
    | .ReturnValue v => rfl
    | .ErrorO m => rfl
    | .FunctionO p b e => rfl
    | .BuiltinO f => rfl
    | .ArrayO es => rfl
    | .RangeO a b => rfl
    | .HashO ps => rfl
  · intro o h
    cases o <;>
      simp_all [evalPrefixExpression, evalMinusPrefixOperatorExpression, Obj.objType,
        newError, INTEGER_OBJ]

/-- Witness for C5 at concrete inputs: `if (0) { 10 } else { 20 }` takes the
consequence because 0 is truthy, and `-true` is an unknown-operator error. -/
theorem c5_truthiness_if_bang_minus_witness :
    evalIfExpression 9 (.IntegerLiteral 0) (.mk [.ExprStmt (.IntegerLiteral 10)])
      (some (.mk [.ExprStmt (.IntegerLiteral 20)])) 0 startStore
      = (.val (.Integer 10), startStore) ∧
    evalPrefixExpression "-" (some (.BooleanO true))
      = .val (.ErrorO "unknown operator: -BOOLEAN") := by
  constructor
  · have h := c5_truthiness_if_bang_minus.2.2.2.1 8 (.IntegerLiteral 0)
      (.mk [.ExprStmt (.IntegerLiteral 10)]) (some (.mk [.ExprStmt (.IntegerLiteral 20)]))
      0 startStore (.Integer 0) startStore rfl rfl rfl
    rw [h]
    rfl
  · have h := c5_truthiness_if_bang_minus.2.2.2.2.2.2.2.2 (.BooleanO true) (by decide)
    simpa [Obj.objType, BOOLEAN_OBJ] using h

/-- C6: Array[Integer] yields element i for 0 ≤ i < length and otherwise an
Error whose message carries the index and the length (never a host panic);
Array[Range] under the Range invariant from ≤ toExclusive yields the slice
when 0 ≤ from and toExclusive ≤ length and otherwise the out-of-bounds
Error; the same rules word for word on String bytes; Hash indexing demands a
Hashable key (else "unusable as hash key") and a missing key yields Null;
`[1,2,3][5]` evaluates to the Error reporting index 5 and length 3. -/
theorem c6_index_semantics :
    (∀ elems (iv : Int), 0 ≤ iv → iv < (elems.length : Int) →
        evalIndexPure (some (.ArrayO elems)) (some (.Integer iv))
          = optToRes (elems.getD iv.toNat none)) ∧
    (∀ elems (iv : Int), iv < 0 ∨ (elems.length : Int) ≤ iv →
        evalIndexPure (some (.ArrayO elems)) (some (.Integer iv))
          = .val (.ErrorO ("index out of bounds, index=" ++ toString iv ++
              " len=" ++ toString elems.length))) ∧
    (∀ elems (a b : Int), a ≤ b → 0 ≤ a → b ≤ (elems.length : Int) →
        evalIndexPure (some (.ArrayO elems)) (some (.RangeO a b))
          = .val (.ArrayO ((elems.drop a.toNat).take (b - a).toNat))) ∧
    (∀ elems (a b : Int), a ≤ b → (a < 0 ∨ (elems.length : Int) < b) →
        evalIndexPure (some (.ArrayO elems)) (some (.RangeO a b))
          = .val (.ErrorO ("range index out of bounds, index=" ++ toString a ++ ":" ++
              toString b ++ " len=" ++ toString elems.length))) ∧
    (∀ s (iv : Int), 0 ≤ iv → iv < (s.length : Int) →
        evalIndexPure (some (.StringO s)) (some (.Integer iv))
          = .val (.StringO (runeUTF8 (s.getD iv.toNat 0)))) ∧
    (∀ s (iv : Int), iv < 0 ∨ (s.length : Int) ≤ iv →
        evalIndexPure (some (.StringO s)) (some (.Integer iv))
          = .val (.ErrorO ("index out of bounds, index=" ++ toString iv ++
              " len=" ++ toString s.length))) ∧
    (∀ s (a b : Int), a ≤ b → 0 ≤ a → b ≤ (s.length : Int) →
        evalIndexPure (some (.StringO s)) (some (.RangeO a b))
          = .val (.StringO ((s.drop a.toNat).take (b - a).toNat))) ∧
    (∀ s (a b : Int), a ≤ b → (a < 0 ∨ (s.length : Int) < b) →
        evalIndexPure (some (.StringO s)) (some (.RangeO a b))
          = .val (.ErrorO ("range index out of bounds, index=" ++ toString a ++ ":" ++
              toString b ++ " len=" ++ toString s.length))) ∧
    (∀ pairs (io : Obj), hashKeyOf io = none →
        evalIndexPure (some (.HashO pairs)) (some io)
          = .val (.ErrorO ("unusable as hash key: " ++ io.objType))) ∧
    (∀ pairs (io : Obj) k, hashKeyOf io = some k → hashLookup pairs k = none →
        evalIndexPure (some (.HashO pairs)) (some io) = .val .NullO) ∧
    (∀ pairs (io : Obj) k p v, hashKeyOf io = some k → hashLookup pairs k = some (p, v) →
        evalIndexPure (some (.HashO pairs)) (some io) = optToRes v) ∧
    (Eval 20 (.expr (.IndexExpr
        (.ArrayLiteral [.IntegerLiteral 1, .IntegerLiteral 2, .IntegerLiteral 3])
        (.IntegerLiteral 5))) 0 startStore).1
      = .val (.ErrorO "index out of bounds, index=5 len=3") := by
  refine ⟨?_, ?_, ?_, ?_, ?_, ?_, ?_, ?_, ?_, ?_, ?_, rfl⟩
  · intro elems iv h0 hlen
    simp only [evalIndexPure]
    rw [if_neg (by omega)]
  · intro elems iv h
    simp only [evalIndexPure, newError]
    rw [if_pos (by omega)]
  · intro elems a b hab h0 hlen
    simp only [evalIndexPure]
    rw [if_neg (by omega), if_neg (by omega)]
  · intro elems a b hab h
    simp only [evalIndexPure, newError]
    rw [if_pos (by omega)]
  · intro s iv h0 hlen
    simp only [evalIndexPure]
    rw [if_neg (by omega)]
  · intro s iv h
    simp only [evalIndexPure, newError]
    rw [if_pos (by omega)]
  · intro s a b hab h0 hlen
    simp only [evalIndexPure]
    rw [if_neg (by omega), if_neg (by omega)]
  · intro s a b hab h
    simp only [evalIndexPure, newError]
    rw [if_pos (by omega)]
  · intro pairs io h
    simp [evalIndexPure, h, newError]
  · intro pairs io k h hl
    simp [evalIndexPure, h, hl]
  · intro pairs io k p v h hl
    simp [evalIndexPure, h, hl]

/-- Witness for C6 at concrete inputs: [7][0] is 7, "ab"[1] is "b", [7][0:1]
is [7], a Hash indexed with an Array key is unusable, and a missing Integer
key yields Null. -/
theorem c6_index_semantics_witness :
    evalIndexPure (some (.ArrayO [some (.Integer 7)])) (some (.Integer 0))
      = .val (.Integer 7) ∧
    evalIndexPure (some (.StringO [97, 98])) (some (.Integer 1)) = .val (.StringO [98]) ∧
    evalIndexPure (some (.ArrayO [some (.Integer 7)])) (some (.RangeO 0 1))
      = .val (.ArrayO [some (.Integer 7)]) ∧
    evalIndexPure (some (.HashO [])) (some (.ArrayO []))
      = .val (.ErrorO ("unusable as hash key: " ++ ARRAY_OBJ)) ∧
    evalIndexPure (some (.HashO [])) (some (.Integer 3)) = .val .NullO := by
  refine ⟨?_, ?_, ?_, ?_, ?_⟩
  · have h := c6_index_semantics.1 [some (.Integer 7)] 0 (by decide) (by decide)
    simpa [optToRes] using h
  · have h := c6_index_semantics.2.2.2.2.1 [97, 98] 1 (by decide) (by decide)
    simpa [runeUTF8] using h
  · have h := c6_index_semantics.2.2.1 [some (.Integer 7)] 0 1 (by decide) (by decide) (by decide)
    simpa using h
  · have h := c6_index_semantics.2.2.2.2.2.2.2.2.1 [] (.ArrayO []) rfl
    simpa [Obj.objType] using h
  · exact c6_index_semantics.2.2.2.2.2.2.2.2.2.1 [] (.Integer 3) (integerHashKey 3) rfl rfl

/-- A two-frame store: a top-level frame binding x to 1, and an empty
enclosed frame whose outer is the first. -/
def demoStore : Store := [⟨none, [("x", some (.Integer 1))]⟩, ⟨some 0, []⟩]

/-- List.set leaves every other position unchanged. -/
theorem get_set_ne : ∀ (l : List Frame) (i j : Nat) (fr : Frame), j ≠ i →
    (l.set i fr).get? j = l.get? j := by
  intro l
  induction l with
  | nil => intro i j fr _; simp
  | cons hd tl ih =>
    intro i j fr hj
    cases i with
    | zero =>
      cases j with
      | zero => exact absurd rfl hj
      | succ j2 => simp [List.set]
    | succ i2 =>
      cases j with
      | zero => simp [List.set]
      | succ j2 => simpa [List.set] using ih i2 j2 fr (by omega)

/-- List.set stores the new element at an in-range position. -/
theorem get_set_self : ∀ (l : List Frame) (i : Nat) (fr : Frame), i < l.length →
    (l.set i fr).get? i = some fr := by
  intro l
  induction l with
  | nil => intro i fr h; simp at h
  | cons hd tl ih =>
    intro i fr h
    cases i with
    | zero => simp [List.set]
    | succ i2 => simpa [List.set] using ih i2 fr (by simpa using h)

/-- C7: Set writes only into the receiver frame — every other frame of the
store, in particular every outer frame, is untouched, so an inner rebinding
shadows and never updates an outer binding; Get returns the receiver
frame's binding when present and walks to the outer frame only on absence,
answering none once the chain is exhausted; evalIdentifier consults the
builtin registry only after Get fails (a binding shadows a same-named
builtin) and reports "identifier not found" when both miss. -/
theorem c7_environment :
    (∀ st idx name v j, j ≠ idx → getFrame (envSet st idx name v) j = getFrame st j) ∧
    (∀ st idx name v, idx < st.length →
        lookupBind (getFrame (envSet st idx name v) idx).store name = some v) ∧
    (∀ st fuel idx name v, lookupBind (getFrame st idx).store name = some v →
        envGet st (fuel + 1) idx name = some v) ∧
    (∀ st fuel idx o name, lookupBind (getFrame st idx).store name = none →
        (getFrame st idx).outer = some o →
        envGet st (fuel + 1) idx name = envGet st fuel o name) ∧
    (∀ st fuel idx name, lookupBind (getFrame st idx).store name = none →
        (getFrame st idx).outer = none →
        envGet st (fuel + 1) idx name = none) ∧
    (∀ st env name v, envGet st st.length env name = some v →
        evalIdentifier st env name = optToRes v) ∧
    (∀ st env name b, envGet st st.length env name = none → builtins name = some b →
        evalIdentifier st env name = .val (.BuiltinO b)) ∧
    (∀ st env name, envGet st st.length env name = none → builtins name = none →
        evalIdentifier st env name = .val (.ErrorO ("identifier not found: " ++ name))) := by
  refine ⟨?_, ?_, ?_, ?_, ?_, ?_, ?_, ?_⟩
  · intro st idx name v j hj
    simp only [getFrame, envSet, List.getD]
    rw [get_set_ne _ _ _ _ hj]
  · intro st idx name v hidx
    have hupd : ∀ (bs : List (String × Option Obj)), lookupBind (updateBind bs name v) name = some v := by
      intro bs
      induction bs with
      | nil => simp [updateBind, lookupBind]
      | cons hd tl ih =>
        by_cases h : hd.1 = name
        · simp [updateBind, h, lookupBind]
        · simp [updateBind, h, lookupBind, ih]
    simp only [getFrame, envSet, List.getD]
    rw [get_set_self _ _ _ (by simpa [envSet] using hidx)]
    simpa [getFrame, List.getD] using hupd (getFrame st idx).store
  · intro st fuel idx name v h
    simp [envGet, h]
  · intro st fuel idx o name h ho
    simp [envGet, h, ho]
  · intro st fuel idx name h ho
    simp [envGet, h, ho]
  · intro st env name v h
    simp [evalIdentifier, h]
  · intro st env name b h hb
    simp [evalIdentifier, h, hb]
  · intro st env name h hb
    simp [evalIdentifier, h, hb, newError]

/-- Witness for C7 at concrete inputs: rebinding x in the enclosed frame
leaves the top-level frame intact while Get now answers from the inner
frame; the outer binding of x is still visible before the Set; `len`
resolves to the builtin only because no binding exists, and an unknown name
errors. -/
theorem c7_environment_witness :
    getFrame (envSet demoStore 1 "x" (some (.Integer 2))) 0 = getFrame demoStore 0 ∧
    evalIdentifier (envSet demoStore 1 "x" (some (.Integer 2))) 1 "x" = .val (.Integer 2) ∧
    evalIdentifier demoStore 1 "x" = .val (.Integer 1) ∧
    evalIdentifier demoStore 1 "len" = .val (.BuiltinO .lenTag) ∧
    evalIdentifier demoStore 1 "zap" = .val (.ErrorO "identifier not found: zap") := by
  refine ⟨c7_environment.1 demoStore 1 "x" (some (.Integer 2)) 0 (by decide), ?_, ?_, ?_, ?_⟩
  · exact c7_environment.2.2.2.2.2.1 (envSet demoStore 1 "x" (some (.Integer 2))) 1 "x"
      (some (.Integer 2)) rfl
  · exact c7_environment.2.2.2.2.2.1 demoStore 1 "x" (some (.Integer 1)) rfl
  · exact c7_environment.2.2.2.2.2.2.1 demoStore 1 "len" .lenTag rfl rfl
  · exact c7_environment.2.2.2.2.2.2.2 demoStore 1 "zap" rfl rfl

/-- C8: HashKey is a function of the variant and value alone, so equal
Hashable objects give equal keys and a separately constructed equal key
retrieves the stored value (also end to end: `{5: 99}[5]` with two distinct
Integer 5 objects yields 99); the type tag is part of the key, so Hashable
objects of different variants never collide — in particular Boolean true
and Integer 1 share the 64-bit encoding 1 yet have different keys. -/
theorem c8_hashkeys :
    (∀ o1 o2 : Obj, o1 = o2 → hashKeyOf o1 = hashKeyOf o2) ∧
    (∀ ps k p v, hashLookup (hashInsert ps k p v) k = some (p, v)) ∧
    (∀ pairs (v : Int) p w, hashLookup pairs (integerHashKey v) = some (p, w) →
        evalIndexPure (some (.HashO pairs)) (some (.Integer v)) = optToRes w) ∧
    (∀ (o1 o2 : Obj) k1 k2, hashKeyOf o1 = some k1 → hashKeyOf o2 = some k2 →
        o1.objType ≠ o2.objType → k1 ≠ k2) ∧
    ((booleanHashKey true).value = (integerHashKey 1).value ∧
      booleanHashKey true ≠ integerHashKey 1) ∧
    (Eval 20 (.expr (.IndexExpr (.HashLiteral [(.IntegerLiteral 5, .IntegerLiteral 99)])
        (.IntegerLiteral 5))) 0 startStore).1 = .val (.Integer 99) := by
  have htag : ∀ (o : Obj) k, hashKeyOf o = some k → k.typeTag = o.objType := by
    intro o k h
    cases o <;> simp [hashKeyOf] at h <;> subst h <;> rfl
  refine ⟨?_, ?_, ?_, ?_, ⟨by decide, by decide⟩, rfl⟩
  · intro o1 o2 h
    rw [h]
  · intro ps k p v
    induction ps with
    | nil => simp [hashInsert, hashLookup]
    | cons hd tl ih =>
      by_cases h : hd.1 = k
      · simp [hashInsert, h, hashLookup]
      · simp [hashInsert, h, hashLookup, ih]
  · intro pairs v p w h
    simp [evalIndexPure, hashKeyOf, h]
  · intro o1 o2 k1 k2 h1 h2 hne h12
    exact hne (by rw [← htag o1 k1 h1, ← htag o2 k2 h2, h12])

/-- Witness for C8 at concrete inputs: inserting under Integer 5's key and
looking up with a separately computed Integer 5 key finds the stored pair,
and the keys of Boolean true and Integer 1 differ. -/
theorem c8_hashkeys_witness :
    hashLookup (hashInsert [] (integerHashKey 5) (.Integer 5) (some (.Integer 99)))
      (integerHashKey 5) = some (.Integer 5, some (.Integer 99)) ∧
    evalIndexPure (some (.HashO (hashInsert [] (integerHashKey 5) (.Integer 5)
      (some (.Integer 99))))) (some (.Integer 5)) = .val (.Integer 99) :=
  ⟨c8_hashkeys.2.1 [] (integerHashKey 5) (.Integer 5) (some (.Integer 99)),
   c8_hashkeys.2.2.1 (hashInsert [] (integerHashKey 5) (.Integer 5) (some (.Integer 99)))
     5 (.Integer 5) (some (.Integer 99))
     (c8_hashkeys.2.1 [] (integerHashKey 5) (.Integer 5) (some (.Integer 99)))⟩

/-- The pair `a: 1` of a hash literal, with `a` unbound. -/
def hashPairA : Expr × Expr := (.Identifier "a", .IntegerLiteral 1)

/-- The pair `b: 2` of a hash literal, with `b` unbound. -/
def hashPairB : Expr × Expr := (.Identifier "b", .IntegerLiteral 2)

/-- C4 counterexample: evalHashExpression ranges over the HashLiteral's Go
map, whose iteration order is unspecified, so a run of the code visits SOME
permutation of the literal's pairs (evalHashPairs applied to that
permutation).  For `{a: 1, b: 2}` with a and b unbound, the two admissible
visiting orders are permutations of one another yet produce different
Errors — hence the hash literal's sub-expressions are NOT evaluated in a
fixed left-to-right order, refuting the claim as stated. -/
theorem c4_hash_order_counterexample :
    List.Perm [hashPairB, hashPairA] [hashPairA, hashPairB] ∧
    (evalHashPairs 10 [hashPairA, hashPairB] [] 0 startStore).1
      = .val (.ErrorO "identifier not found: a") ∧
    (evalHashPairs 10 [hashPairB, hashPairA] [] 0 startStore).1
      = .val (.ErrorO "identifier not found: b") ∧
    ("identifier not found: a" : String) ≠ "identifier not found: b" :=
  ⟨List.Perm.swap hashPairA hashPairB [], rfl, rfl, by decide⟩

/-- C4 (amended): every compound node except the hash literal evaluates its
sub-expressions in a fixed left-to-right order and returns the first Error
unchanged, without evaluating the remaining (generic) sub-expressions or
performing the parent operation; for a hash literal the pairs are visited in
the Go map's unspecified iteration order (modelled by quantifying over the
visited pair list), each pair's key before its value, and the first Error in
that order is returned with nothing further evaluated. -/
theorem c4_error_short_circuit :
    (∀ fuel op r env st st1 m, Eval fuel (.expr r) env st = (.val (.ErrorO m), st1) →
        Eval (fuel + 1) (.expr (.PrefixExpr op r)) env st = (.val (.ErrorO m), st1)) ∧
    (∀ fuel op l r env st st1 m, Eval fuel (.expr l) env st = (.val (.ErrorO m), st1) →
        Eval (fuel + 1) (.expr (.InfixExpr op l r)) env st = (.val (.ErrorO m), st1)) ∧
    (∀ fuel op l r env st st1 st2 lv m, Eval fuel (.expr l) env st = (.val lv, st1) →
        isErrorRes (.val lv) = false →
        Eval fuel (.expr r) env st1 = (.val (.ErrorO m), st2) →
        Eval (fuel + 1) (.expr (.InfixExpr op l r)) env st = (.val (.ErrorO m), st2)) ∧
    (∀ fuel c cons alt env st st1 m, Eval fuel (.expr c) env st = (.val (.ErrorO m), st1) →
        evalIfExpression (fuel + 1) c cons alt env st = (.val (.ErrorO m), st1)) ∧
    (∀ fuel e env st st1 m, Eval fuel (.expr e) env st = (.val (.ErrorO m), st1) →
        Eval (fuel + 1) (.stmt (.ReturnStmt e)) env st = (.val (.ErrorO m), st1)) ∧
    (∀ fuel name e env st st1 m, Eval fuel (.expr e) env st = (.val (.ErrorO m), st1) →
        Eval (fuel + 1) (.stmt (.LetStmt name e)) env st = (.val (.ErrorO m), st1)) ∧
    (∀ fuel fn args env st st1 m, Eval fuel (.expr fn) env st = (.val (.ErrorO m), st1) →
        Eval (fuel + 1) (.expr (.CallExpr fn args)) env st = (.val (.ErrorO m), st1)) ∧
    (∀ fuel e ys acc env st st1 m, Eval fuel (.expr e) env st = (.val (.ErrorO m), st1) →
        evalExpressionsLoop (fuel + 1) (e :: ys) acc env st = (.objs [some (.ErrorO m)], st1)) ∧
    (∀ fuel e ys acc env st st1 v, Eval fuel (.expr e) env st = (.val v, st1) →
        isErrorRes (.val v) = false →
        evalExpressionsLoop (fuel + 1) (e :: ys) acc env st
          = evalExpressionsLoop fuel ys (acc ++ [some v]) env st1) ∧
    (∀ fuel elems env st st1 m,
        evalExpressionsLoop fuel elems [] env st = (.objs [some (.ErrorO m)], st1) →
        Eval (fuel + 1) (.expr (.ArrayLiteral elems)) env st = (.val (.ErrorO m), st1)) ∧
    (∀ fuel fn args env st st1 st2 fv m,
        Eval fuel (.expr fn) env st = (.val fv, st1) →
        isErrorRes (.val fv) = false →
        evalExpressionsLoop fuel args [] env st1 = (.objs [some (.ErrorO m)], st2) →
        Eval (fuel + 1) (.expr (.CallExpr fn args)) env st = (.val (.ErrorO m), st2)) ∧
    (∀ fuel l i env st st1 m, Eval fuel (.expr l) env st = (.val (.ErrorO m), st1) →
        evalIndexExpression (fuel + 1) l i env st = (.val (.ErrorO m), st1)) ∧
    (∀ fuel l i env st st1 st2 lv m, Eval fuel (.expr l) env st = (.val lv, st1) →
        isErrorRes (.val lv) = false →
        Eval fuel (.expr i) env st1 = (.val (.ErrorO m), st2) →
        evalIndexExpression (fuel + 1) l i env st = (.val (.ErrorO m), st2)) ∧
    (∀ fuel l r env st st1 m, Eval fuel (.expr l) env st = (.val (.ErrorO m), st1) →
        evalRangeExpression (fuel + 1) l r env st = (.val (.ErrorO m), st1)) ∧
    (∀ fuel l r env st st1 st2 lv m, Eval fuel (.expr l) env st = (.val lv, st1) →
        isErrorRes (.val lv) = false →
        Eval fuel (.expr r) env st1 = (.val (.ErrorO m), st2) →
        evalRangeExpression (fuel + 1) l r env st = (.val (.ErrorO m), st2)) ∧
    (∀ fuel k v rest acc env st st1 m, Eval fuel (.expr k) env st = (.val (.ErrorO m), st1) →
        evalHashPairs (fuel + 1) ((k, v) :: rest) acc env st = (.val (.ErrorO m), st1)) ∧
    (∀ fuel k v rest acc env st st1 st2 ko hk m,
        Eval fuel (.expr k) env st = (.val ko, st1) →
        hashKeyOf ko = some hk →
        Eval fuel (.expr v) env st1 = (.val (.ErrorO m), st2) →
        evalHashPairs (fuel + 1) ((k, v) :: rest) acc env st = (.val (.ErrorO m), st2)) := by
  have hko_noterr : ∀ (ko : Obj) hk, hashKeyOf ko = some hk → isErrorRes (.val ko) = false := by
    intro ko hk h
    cases ko <;> simp_all [hashKeyOf, isErrorRes]
  refine ⟨?_, ?_, ?_, ?_, ?_, ?_, ?_, ?_, ?_, ?_, ?_, ?_, ?_, ?_, ?_, ?_, ?_⟩
  · intro fuel op r env st st1 m h
    simp [Eval, h, isAbort, isErrorRes]
  · intro fuel op l r env st st1 m h
    simp [Eval, h, isAbort, isErrorRes]
  · intro fuel op l r env st st1 st2 lv m h1 h2 h3
    cases lv <;> simp_all [Eval, isAbort, isErrorRes]
  · intro fuel c cons alt env st st1 m h
    simp [evalIfExpression, h, isAbort, isErrorRes]
  · intro fuel e env st st1 m h
    simp [Eval, h, isAbort, isErrorRes]
  · intro fuel name e env st st1 m h
    simp [Eval, h, isAbort, isErrorRes]
  · intro fuel fn args env st st1 m h
    simp [Eval, h, isAbort, isErrorRes]
  · intro fuel e ys acc env st st1 m h
    simp [evalExpressionsLoop, h, isAbort, isErrorRes, EvalRes.toOpt]
  · intro fuel e ys acc env st st1 v h1 h2
    cases v <;> simp_all [evalExpressionsLoop, isAbort, isErrorRes, EvalRes.toOpt]
  · intro fuel elems env st st1 m h
    simp [Eval, h, isErrorOpt, optToRes]
  · intro fuel fn args env st st1 st2 fv m h1 h2 h3
    cases fv <;> simp_all [Eval, isAbort, isErrorRes, EvalRes.toOpt, isErrorOpt, optToRes]
  · intro fuel l i env st st1 m h
    simp [evalIndexExpression, h, isAbort, isErrorRes]
  · intro fuel l i env st st1 st2 lv m h1 h2 h3
    cases lv <;> simp_all [evalIndexExpression, isAbort, isErrorRes]
  · intro fuel l r env st st1 m h
    simp [evalRangeExpression, h, isAbort, isErrorRes]
  · intro fuel l r env st st1 st2 lv m h1 h2 h3
    cases lv <;> simp_all [evalRangeExpression, isAbort, isErrorRes]
  · intro fuel k v rest acc env st st1 m h
    simp [evalHashPairs, h, isAbort, isErrorRes]
  · intro fuel k v rest acc env st st1 st2 ko hk m h1 h2 h3
    cases ko <;>
      simp_all [evalHashPairs, hashKeyOf, isAbort, isErrorRes, EvalRes.toOpt]

/-- Witness for C4 at a concrete input: the unbound identifier inside
`!nope` and inside `nope + 1` propagates out unchanged. -/
theorem c4_error_short_circuit_witness :
    Eval 6 (.expr (.PrefixExpr "!" (.Identifier "nope"))) 0 startStore
      = (.val (.ErrorO "identifier not found: nope"), startStore) ∧
    Eval 6 (.expr (.InfixExpr "+" (.Identifier "nope") (.IntegerLiteral 1))) 0 startStore
      = (.val (.ErrorO "identifier not found: nope"), startStore) :=
  ⟨c4_error_short_circuit.1 5 "!" (.Identifier "nope") 0 startStore startStore
      "identifier not found: nope" rfl,
   c4_error_short_circuit.2.1 5 "+" (.Identifier "nope") (.IntegerLiteral 1) 0 startStore
      startStore "identifier not found: nope" rfl⟩

end Waiig
